import Mathlib

/-!
Verification of the 9P2000.u file-server core of the load81-picocalc
repository: a shallow embedding of the wire codec
(src/picocalc_9p_proto.c), the session framing and FID table
(src/picocalc_9p.c), the message handlers (src/picocalc_9p_handlers.c),
the filesystem adaptor (src/picocalc_9p_fs.c) and the synchronized
storage wrapper (src/picocalc_fat32_sync.c), together with proofs and
refutations of the specification's claims about them.

Machine integers are modelled as Nat with explicit reduction mod 2^w at
the points where the C code masks or stores bytes; buffers are Lists of
byte values; the sticky-error cursor of p9_msg_t is modelled literally.
The external FAT32 driver (fat32.h / fat32.c, not part of the sources)
is a parameter of every definition that calls through it: each such
definition takes the backend outcome function as an argument.
-/

namespace P9

/-! ## Wire codec (src/picocalc_9p_proto.c) -/

/-- Shallow embedding of p9_msg_t: byte buffer, capacity, cursor and the
sticky error flag.  The header fields (size/type/tag) of the C struct are
kept by the framing layer below, not here, since no codec primitive reads
them. -/
structure p9_msg where
  data : List Nat
  capacity : Nat
  pos : Nat
  error : Bool
deriving DecidableEq

/-- Embedding of p9_read_u8: bounds check against capacity with sticky
error, else return the byte at the cursor and advance by 1. -/
def p9_read_u8 (msg : p9_msg) : Nat × p9_msg :=
  if msg.error || decide (msg.pos + 1 > msg.capacity) then
    (0, { msg with error := true })
  else
    (msg.data.getD msg.pos 0, { msg with pos := msg.pos + 1 })

/-- Embedding of p9_read_u16.  The C combines the two bytes with
b0 | (b1 << 8); on byte lanes this is b0 + b1 * 256. -/
def p9_read_u16 (msg : p9_msg) : Nat × p9_msg :=
  if msg.error || decide (msg.pos + 2 > msg.capacity) then
    (0, { msg with error := true })
  else
    (msg.data.getD msg.pos 0 + msg.data.getD (msg.pos + 1) 0 * 256,
     { msg with pos := msg.pos + 2 })

/-- Embedding of p9_read_u32 (little-endian, 4 bytes). -/
def p9_read_u32 (msg : p9_msg) : Nat × p9_msg :=
  if msg.error || decide (msg.pos + 4 > msg.capacity) then
    (0, { msg with error := true })
  else
    (msg.data.getD msg.pos 0 + msg.data.getD (msg.pos + 1) 0 * 256 +
       msg.data.getD (msg.pos + 2) 0 * 65536 + msg.data.getD (msg.pos + 3) 0 * 16777216,
     { msg with pos := msg.pos + 4 })

/-- Embedding of p9_read_u64 (little-endian, 8 bytes). -/
def p9_read_u64 (msg : p9_msg) : Nat × p9_msg :=
  if msg.error || decide (msg.pos + 8 > msg.capacity) then
    (0, { msg with error := true })
  else
    (msg.data.getD msg.pos 0 + msg.data.getD (msg.pos + 1) 0 * 256 +
       msg.data.getD (msg.pos + 2) 0 * 65536 + msg.data.getD (msg.pos + 3) 0 * 16777216 +
       msg.data.getD (msg.pos + 4) 0 * 4294967296 +
       msg.data.getD (msg.pos + 5) 0 * 1099511627776 +
       msg.data.getD (msg.pos + 6) 0 * 281474976710656 +
       msg.data.getD (msg.pos + 7) 0 * 72057594037927936,
     { msg with pos := msg.pos + 8 })

/-- Embedding of p9_write_u8: the uint8_t parameter is modelled by storing
the value mod 256. -/
def p9_write_u8 (msg : p9_msg) (val : Nat) : Bool × p9_msg :=
  if msg.error || decide (msg.pos + 1 > msg.capacity) then
    (false, { msg with error := true })
  else
    (true, { msg with data := msg.data.set msg.pos (val % 256), pos := msg.pos + 1 })

/-- Embedding of p9_write_u16: the C stores val & 0xFF and (val >> 8) & 0xFF,
i.e. val % 256 and val / 256 % 256. -/
def p9_write_u16 (msg : p9_msg) (val : Nat) : Bool × p9_msg :=
  if msg.error || decide (msg.pos + 2 > msg.capacity) then
    (false, { msg with error := true })
  else
    (true,
     { msg with
        data := (msg.data.set msg.pos (val % 256)).set (msg.pos + 1) (val / 256 % 256),
        pos := msg.pos + 2 })

/-- Embedding of p9_write_u32 (little-endian byte stores). -/
def p9_write_u32 (msg : p9_msg) (val : Nat) : Bool × p9_msg :=
  if msg.error || decide (msg.pos + 4 > msg.capacity) then
    (false, { msg with error := true })
  else
    (true,
     { msg with
        data :=
          (((msg.data.set msg.pos (val % 256)).set (msg.pos + 1) (val / 256 % 256)).set
              (msg.pos + 2) (val / 65536 % 256)).set (msg.pos + 3) (val / 16777216 % 256),
        pos := msg.pos + 4 })

/-- Embedding of p9_write_u64 (little-endian byte stores). -/
def p9_write_u64 (msg : p9_msg) (val : Nat) : Bool × p9_msg :=
  if msg.error || decide (msg.pos + 8 > msg.capacity) then
    (false, { msg with error := true })
  else
    (true,
     { msg with
        data :=
          (((((((msg.data.set msg.pos (val % 256)).set (msg.pos + 1) (val / 256 % 256)).set
                    (msg.pos + 2) (val / 65536 % 256)).set (msg.pos + 3)
                  (val / 16777216 % 256)).set (msg.pos + 4) (val / 4294967296 % 256)).set
                (msg.pos + 5) (val / 1099511627776 % 256)).set (msg.pos + 6)
              (val / 281474976710656 % 256)).set (msg.pos + 7)
            (val / 72057594037927936 % 256),
        pos := msg.pos + 8 })

/-- Helper for the memcpy in p9_write_string_len and p9_write_bytes:
store a byte list at consecutive positions. -/
def setBytes (data : List Nat) (pos : Nat) (bytes : List Nat) : List Nat :=
  match bytes with
  | [] => data
  | b :: rest => setBytes (data.set pos (b % 256)) (pos + 1) rest

/-- Embedding of p9_write_string_len: capacity guard on pos + 2 + len,
then the u16 length prefix, then the string bytes.  The C char pointer
plus length pair is modelled as a byte list s whose length is len. -/
def p9_write_string_len (msg : p9_msg) (s : List Nat) : Bool × p9_msg :=
  if msg.error || decide (msg.pos + 2 + s.length > msg.capacity) then
    (false, { msg with error := true })
  else
    let m1 := (p9_write_u16 msg s.length).2
    (true, { m1 with data := setBytes m1.data m1.pos s, pos := m1.pos + s.length })

/-- Embedding of p9_read_string: u16 length, bounds check against
capacity, then the bytes.  Returns none exactly when the C returns false;
the C's NULL pointer for a zero-length string is the empty list here. -/
def p9_read_string (msg : p9_msg) : Option (List Nat) × p9_msg :=
  if msg.error then (none, msg)
  else
    let r := p9_read_u16 msg
    let len := r.1
    let m1 := r.2
    if m1.error then (none, m1)
    else if decide (m1.pos + len > m1.capacity) then (none, { m1 with error := true })
    else (some ((m1.data.drop m1.pos).take len), { m1 with pos := m1.pos + len })

/-- Embedding of p9_read_string_buf: u16 length, bounds check, then copy
min(len, bufsize-1) bytes into the caller's buffer, null-terminate,
advance the cursor by the full length and return it.  The result triple
is (returned length, bytes copied before the terminator, cursor). -/
def p9_read_string_buf (msg : p9_msg) (bufsize : Nat) : Nat × List Nat × p9_msg :=
  if bufsize == 0 || msg.error then (0, [], msg)
  else
    let r := p9_read_u16 msg
    let len := r.1
    let m1 := r.2
    if m1.error then (0, [], m1)
    else if decide (m1.pos + len > m1.capacity) then (0, [], { m1 with error := true })
    else
      let copy_len := if len < bufsize - 1 then len else bufsize - 1
      (len, (m1.data.drop m1.pos).take copy_len, { m1 with pos := m1.pos + len })

/-- QID triple, as in p9_qid_t. -/
structure p9_qid where
  type : Nat
  version : Nat
  path : Nat
deriving DecidableEq

/-- Embedding of p9_write_qid: u8 type, u32 version, u64 path in order.
The C short-circuits on failure; with the sticky error flag the chained
form below produces the identical final state. -/
def p9_write_qid (msg : p9_msg) (qid : p9_qid) : Bool × p9_msg :=
  let r1 := p9_write_u8 msg qid.type
  let r2 := p9_write_u32 r1.2 qid.version
  let r3 := p9_write_u64 r2.2 qid.path
  (r1.1 && r2.1 && r3.1, r3.2)

/-- Embedding of p9_read_qid: u8, u32, u64 in order; none when the sticky
error is set afterwards. -/
def p9_read_qid (msg : p9_msg) : Option p9_qid × p9_msg :=
  let r1 := p9_read_u8 msg
  let r2 := p9_read_u32 r1.2
  let r3 := p9_read_u64 r2.2
  (if r3.2.error then none else some ⟨r1.1, r2.1, r3.1⟩, r3.2)

/-! ## Configuration constants (src/picocalc_9p.h, src/picocalc_9p_proto.h) -/

def P9_MAX_MSG_SIZE : Nat := 8192

def P9_MAX_FIDS_PER_CLIENT : Nat := 64

def P9_MAX_WALK_ELEMENTS : Nat := 16

def P9_QTDIR : Nat := 0x80

def P9_QTFILE : Nat := 0x00

/-! ## FAT32 backend error codes (enum fat32_error_t of the external
fat32.h driver; the constructor names are exactly those the sources
consume) and their 9P error-string mapping. -/

inductive fat32_error where
  | FAT32_OK
  | FAT32_ERROR_NO_CARD
  | FAT32_ERROR_INIT_FAILED
  | FAT32_ERROR_READ_FAILED
  | FAT32_ERROR_WRITE_FAILED
  | FAT32_ERROR_INVALID_FORMAT
  | FAT32_ERROR_NOT_MOUNTED
  | FAT32_ERROR_FILE_NOT_FOUND
  | FAT32_ERROR_INVALID_PATH
  | FAT32_ERROR_NOT_A_DIRECTORY
  | FAT32_ERROR_NOT_A_FILE
  | FAT32_ERROR_DIR_NOT_EMPTY
  | FAT32_ERROR_DIR_NOT_FOUND
  | FAT32_ERROR_DISK_FULL
  | FAT32_ERROR_FILE_EXISTS
  | FAT32_ERROR_INVALID_POSITION
  | FAT32_ERROR_INVALID_PARAMETER
deriving DecidableEq

/-- Embedding of fat32_error_to_string (src/picocalc_9p_handlers.c). -/
def fat32_error_to_string : fat32_error → String
  | .FAT32_OK => "success"
  | .FAT32_ERROR_NO_CARD => "no SD card"
  | .FAT32_ERROR_INIT_FAILED => "initialization failed"
  | .FAT32_ERROR_READ_FAILED => "read failed"
  | .FAT32_ERROR_WRITE_FAILED => "write failed"
  | .FAT32_ERROR_INVALID_FORMAT => "invalid format"
  | .FAT32_ERROR_NOT_MOUNTED => "not mounted"
  | .FAT32_ERROR_FILE_NOT_FOUND => "file not found"
  | .FAT32_ERROR_INVALID_PATH => "invalid path"
  | .FAT32_ERROR_NOT_A_DIRECTORY => "not a directory"
  | .FAT32_ERROR_NOT_A_FILE => "not a file"
  | .FAT32_ERROR_DIR_NOT_EMPTY => "directory not empty"
  | .FAT32_ERROR_DIR_NOT_FOUND => "directory not found"
  | .FAT32_ERROR_DISK_FULL => "disk full"
  | .FAT32_ERROR_FILE_EXISTS => "file exists"
  | .FAT32_ERROR_INVALID_POSITION => "invalid position"
  | .FAT32_ERROR_INVALID_PARAMETER => "invalid parameter"

/-- Metadata the external fat32_open populates into a fat32_file_t handle,
reduced to the one field the 9P layer consults (attributes &
FAT32_ATTR_DIRECTORY). -/
structure fat32_file_meta where
  attr_directory : Bool
deriving DecidableEq

/-- The external fat32_open, as a parameter: error code, or the populated
handle metadata on FAT32_OK. -/
abbrev Fat32Open := String → Except fat32_error fat32_file_meta

/-- Embedding of fat32_sync_open (src/picocalc_fat32_sync.c): a failed
bounded-wait acquisition of the global storage mutex (lock_ok = false)
yields FAT32_ERROR_INIT_FAILED; otherwise the wrapped fat32_open runs. -/
def fat32_sync_open (lock_ok : Bool) (fat32_open : Fat32Open) (path : String) :
    Except fat32_error fat32_file_meta :=
  if !lock_ok then .error .FAT32_ERROR_INIT_FAILED else fat32_open path

/-- Embedding of fat32_sync_delete: the same lock-timeout behaviour around
the external fat32_delete. -/
def fat32_sync_delete (lock_ok : Bool) (fat32_delete : String → fat32_error)
    (path : String) : fat32_error :=
  if !lock_ok then .FAT32_ERROR_INIT_FAILED else fat32_delete path

/-! ## FID table (src/picocalc_9p.c, src/picocalc_9p.h)

The C table is a fixed array of 64 slots with in_use flags, scanned
front to back; pointer-returning lookups plus in-place mutation are
modelled as first-match update functions, which is sound because
p9_fid_alloc refuses duplicate fid numbers. -/

inductive p9_fid_type where
  | NONE
  | FILE
  | DIR
  | AUTH
deriving DecidableEq

/-- Embedding of p9_fid_t.  The fat32_file_t member is reduced to its
is_open flag, the only field of it the session core reads. -/
structure p9_fid where
  in_use : Bool
  type : p9_fid_type
  fid : Nat
  qid : p9_qid
  path : String
  file_is_open : Bool
  iounit : Nat
  mode : Nat
deriving DecidableEq

/-- The all-zero slot produced by memset in p9_fid_alloc / p9_server accept. -/
def p9_fid_zero : p9_fid :=
  { in_use := false, type := .NONE, fid := 0, qid := ⟨0, 0, 0⟩, path := ""
    file_is_open := false, iounit := 0, mode := 0 }

/-- Embedding of p9_fid_table_t: 64 slots and the QID-path counter.  The
C field next_qid_path is a uint32_t; it is embedded as a Nat kept below
2^32 by the explicit mod-2^32 reduction in p9_fid_next_qid_path. -/
structure p9_fid_table where
  fids : List p9_fid
  next_qid_path : Nat
deriving DecidableEq

/-- Embedding of p9_fid_table_init: zeroed slots, counter starting at 1. -/
def p9_fid_table_init : p9_fid_table :=
  { fids := List.replicate P9_MAX_FIDS_PER_CLIENT p9_fid_zero, next_qid_path := 1 }

/-- Embedding of p9_fid_next_qid_path: post-increment of the uint32_t
counter, which wraps modulo 2^32 (the returned pre-increment value is
widened to the function's uint64_t return type unchanged). -/
def p9_fid_next_qid_path (table : p9_fid_table) : Nat × p9_fid_table :=
  (table.next_qid_path,
   { table with next_qid_path := (table.next_qid_path + 1) % 4294967296 })

/-- First-match slot scan, the shape of every loop over table->fids. -/
def p9_fid_match (fid_num : Nat) (f : p9_fid) : Bool :=
  f.in_use && f.fid == fid_num

/-- Embedding of p9_fid_get: first in-use slot carrying the number. -/
def p9_fid_get (table : p9_fid_table) (fid_num : Nat) : Option p9_fid :=
  table.fids.find? (p9_fid_match fid_num)

/-- Replace the first slot satisfying p with upd of it; models mutation
through the pointer the C lookups return. -/
def set_first (p : p9_fid → Bool) (upd : p9_fid → p9_fid) : List p9_fid → List p9_fid
  | [] => []
  | f :: rest => if p f then upd f :: rest else f :: set_first p upd rest

/-- Mutation of the slot p9_fid_get would return. -/
def p9_fid_update (table : p9_fid_table) (fid_num : Nat) (upd : p9_fid → p9_fid) :
    p9_fid_table :=
  { table with fids := set_first (p9_fid_match fid_num) upd table.fids }

/-- Embedding of p9_fid_alloc: fail if the number is already in use,
else claim the first free slot with a zeroed record carrying the number
(returning the updated table; the C returns the slot pointer). -/
def p9_fid_alloc (table : p9_fid_table) (fid_num : Nat) : Option p9_fid_table :=
  if table.fids.any (p9_fid_match fid_num) then none
  else if table.fids.any (fun f => !f.in_use) then
    some { table with
            fids := set_first (fun f => !f.in_use)
              (fun _ => { p9_fid_zero with in_use := true, fid := fid_num }) table.fids }
  else none

/-- Embedding of p9_fid_free: close and release the first matching slot
(no-op when the number is unknown, as in the C). -/
def p9_fid_free (table : p9_fid_table) (fid_num : Nat) : p9_fid_table :=
  match p9_fid_get table fid_num with
  | none => table
  | some _ => p9_fid_update table fid_num (fun f => { f with in_use := false })

/-- Embedding of p9_fid_clone: look up the source, allocate the new
number, copy type/qid/path (but never the open file handle). -/
def p9_fid_clone (table : p9_fid_table) (old_fid new_fid : Nat) : Option p9_fid_table :=
  match p9_fid_get table old_fid with
  | none => none
  | some old =>
    match p9_fid_alloc table new_fid with
    | none => none
    | some t1 =>
      some (p9_fid_update t1 new_fid
        (fun f => { f with type := old.type, qid := old.qid, path := old.path }))

/-! ## Session client state and version negotiation
(src/picocalc_9p.h, p9_handle_version in src/picocalc_9p_handlers.c) -/

inductive p9_client_state where
  | DISCONNECTED
  | CONNECTED
  | VERSION_NEGOTIATED
  | ATTACHED
  | ERROR
deriving DecidableEq

/-- The fields of p9_client_t the handlers read or write (buffers and the
TCP control block stay at the transport layer). -/
structure p9_client where
  state : p9_client_state
  max_msg_size : Nat
  version : String
  fid_table : p9_fid_table
deriving DecidableEq

/-- The reply a handler leaves in the response buffer, by message type.
Rerror carries its string; the typed replies carry the payload the
handler serializes. -/
inductive P9Reply where
  | rerror (ename : String)
  | rversion (msize : Nat) (version : String)
  | rattach (qid : p9_qid)
  | rwalk (qids : List p9_qid)
  | ropen (qid : p9_qid) (iounit : Nat)
  | rcreate (qid : p9_qid) (iounit : Nat)
  | rremove
deriving DecidableEq

/-- True exactly for an Rerror reply. -/
def P9Reply.is_error : P9Reply → Bool
  | .rerror _ => true
  | _ => false

/-- Embedding of p9_handle_version on a parsed Tversion (msize, version
string): clamp msize to P9_MAX_MSG_SIZE, accept exactly "9P2000.u"
(moving to VERSION_NEGOTIATED), otherwise record and echo "unknown".
The FID table is whatever it was; the handler never touches it. -/
def p9_handle_version (client : p9_client) (msize : Nat) (version : String) :
    p9_client × P9Reply :=
  let msize := if msize > P9_MAX_MSG_SIZE then P9_MAX_MSG_SIZE else msize
  let client := { client with max_msg_size := msize }
  let client :=
    if version = "9P2000.u" then
      { client with version := version, state := .VERSION_NEGOTIATED }
    else
      { client with version := "unknown" }
  (client, .rversion msize client.version)

/-! ## TCP framing (p9_tcp_recv in src/picocalc_9p.c) -/

/-- Outcome of one pass of the framing loop over the receive buffer. -/
inductive frame_result where
  | NeedMore
  | OneComplete (len : Nat)
  | Terminate
deriving DecidableEq

/-- Embedding of the framing decision in p9_tcp_recv: with fewer than 4
bytes wait; decode the little-endian size S; close the session when
S > P9_MAX_MSG_SIZE or S < 7; wait when fewer than S bytes are buffered;
otherwise dispatch the S-byte message.  The client's negotiated
max_msg_size is in scope in the C (client->max_msg_size) but the
comparison is against the compile-time constant, so the parameter is
unused here exactly as there. -/
def p9_frame_decision (max_msg_size : Nat) (rx : List Nat) : frame_result :=
  if rx.length < 4 then .NeedMore
  else
    let msg_size := rx.getD 0 0 + rx.getD 1 0 * 256 + rx.getD 2 0 * 65536 +
      rx.getD 3 0 * 16777216
    if msg_size > P9_MAX_MSG_SIZE || msg_size < 7 then .Terminate
    else if rx.length < msg_size then .NeedMore
    else .OneComplete msg_size

/-! ## QID emission (p9_handle_attach, p9_walk_path, p9_stat_file,
p9_read_file directory branch)

Every QID the session sends on the wire is materialized at one of two
kinds of site: attach stores the constant root path 1, and every other
site (each resolved walk element, each stat, each directory entry read,
each create) draws from p9_fid_next_qid_path. -/

inductive QidEvent where
  | attach
  | materialize
deriving DecidableEq

/-- The QID paths a session emits for a list of emission events, threading
the table counter exactly as the handlers do. -/
def runQidEvents (es : List QidEvent) (t : p9_fid_table) : List Nat × p9_fid_table :=
  match es with
  | [] => ([], t)
  | .attach :: rest =>
    let r := runQidEvents rest t
    (1 :: r.1, r.2)
  | .materialize :: rest =>
    let n := p9_fid_next_qid_path t
    let r := runQidEvents rest n.2
    (n.1 :: r.1, r.2)

/-- The QID paths a fresh session (table built by p9_fid_table_init)
emits for a list of emission events. -/
def sessionEmittedQids (es : List QidEvent) : List Nat :=
  (runQidEvents es p9_fid_table_init).1

/-- The sublist of emitted paths belonging to the counter-drawing sites. -/
def materializeEmits (es : List QidEvent) (t : p9_fid_table) : List Nat :=
  (es.zip (runQidEvents es t).1).filterMap
    (fun p => match p.1 with
      | .attach => none
      | .materialize => some p.2)

/-! ## Path handling (src/picocalc_9p_fs.c)

p9_normalize_path walks the '/'-separated components, skipping empty and
"." components and popping one component on "..", and rebuilds the path
from "/"; p9_join_path concatenates and normalizes.  The
FAT32_MAX_PATH_LEN overflow failure of the external header's constant is
not modelled (paths are unbounded here). -/

/-- Split a character list at '/' into components. -/
def splitSlash : List Char → List Char → List String
  | [], acc => [String.mk acc.reverse]
  | '/' :: rest, acc => String.mk acc.reverse :: splitSlash rest []
  | c :: rest, acc => splitSlash rest (c :: acc)

/-- The component pass of p9_normalize_path: skip empty and ".", pop on
"..", append otherwise. -/
def p9_norm_fold (acc : List String) : List String → List String
  | [] => acc
  | c :: rest =>
    if c = "" || c = "." then p9_norm_fold acc rest
    else if c = ".." then p9_norm_fold acc.dropLast rest
    else p9_norm_fold (acc ++ [c]) rest

/-- Rejoin normalized components with '/' separators. -/
def joinComps : List String → String
  | [] => ""
  | [c] => c
  | c :: rest => c ++ "/" ++ joinComps rest

/-- Embedding of p9_normalize_path. -/
def p9_normalize_path (path : String) : String :=
  "/" ++ joinComps (p9_norm_fold [] (splitSlash path.data []))

/-- Embedding of p9_join_path: separator-correct concatenation followed
by normalization (the C's conditional separator insert is subsumed by
the normalizer collapsing repeated slashes). -/
def p9_join_path (base name : String) : String :=
  p9_normalize_path (base ++ "/" ++ name)

/-! ## Filesystem adaptor operations (src/picocalc_9p_fs.c) -/

/-- Embedding of the loop of p9_walk_path: join the next name onto the
current path, probe it through the (parameterized) synchronized open,
stop at the index of the first element that fails, and mint one counter
QID per resolved element.  Returns (elements walked, their QIDs, table). -/
def p9_walk_path_go (sync_open : String → Except fat32_error fat32_file_meta)
    (current : String) (names : List String) (table : p9_fid_table) :
    Nat × List p9_qid × p9_fid_table :=
  match names with
  | [] => (0, [], table)
  | name :: rest =>
    let new_path := p9_join_path current name
    match sync_open new_path with
    | .error _ => (0, [], table)
    | .ok meta =>
      let n := p9_fid_next_qid_path table
      let qid : p9_qid := ⟨if meta.attr_directory then P9_QTDIR else P9_QTFILE, 0, n.1⟩
      let r := p9_walk_path_go sync_open new_path rest n.2
      (r.1 + 1, qid :: r.2.1, r.2.2)

/-- Embedding of p9_walk_path: the walk starts at the base FID's path.
The C returns the count of walked elements (never a negative value:
every failure path returns the loop index i). -/
def p9_walk_path (sync_open : String → Except fat32_error fat32_file_meta)
    (base_fid : p9_fid) (names : List String) (table : p9_fid_table) :
    Nat × List p9_qid × p9_fid_table :=
  p9_walk_path_go sync_open base_fid.path names table

/-- The final-path concatenation of p9_handle_walk's success branch: the
raw source path with each raw walk element appended behind a '/'
separator (no renormalization). -/
def walk_final_path (base : String) (names : List String) : String :=
  names.foldl
    (fun acc name =>
      (if acc.data ≠ [] && acc.data.getLast? != some '/' then acc ++ "/" else acc) ++ name)
    base

/-- Embedding of p9_open_file: both branches of the C call the same
synchronized open on the FID path; on FAT32_OK the open mode is recorded
and iounit set to 8192.  The external driver marks the handle open on
success (the is_open flag p9_handle_read / p9_handle_write test). -/
def p9_open_file (sync_open : String → Except fat32_error fat32_file_meta)
    (fid : p9_fid) (mode : Nat) : fat32_error × p9_fid :=
  match sync_open fid.path with
  | .error e => (e, fid)
  | .ok _ => (.FAT32_OK, { fid with mode := mode, iounit := 8192, file_is_open := true })

/-- Embedding of p9_create_file: join the name onto the directory path,
then branch on perm & 0040000 (octal, = 0x4000): directory creation via
the synchronized dir_create, else file creation; the FID type is set
before the error check, the path/mode/iounit only on success. -/
def p9_create_file (sync_dir_create sync_create : String → fat32_error)
    (fid : p9_fid) (name : String) (perm mode : Nat) : fat32_error × p9_fid :=
  let new_path := p9_join_path fid.path name
  let dir_bit := perm / 16384 % 2
  if dir_bit = 1 then
    let err := sync_dir_create new_path
    let fid := { fid with type := .DIR }
    if err = .FAT32_OK then
      (err, { fid with path := new_path, mode := mode, iounit := 8192 })
    else (err, fid)
  else
    let err := sync_create new_path
    let fid := { fid with type := .FILE }
    if err = .FAT32_OK then
      (err, { fid with path := new_path, mode := mode, iounit := 8192 })
    else (err, fid)

/-! ## Message handlers (src/picocalc_9p_handlers.c)

Each handler is embedded on the parsed request fields; the cursor-level
decode failures ("invalid path component" and friends) are upstream of
every claim below and are elided.  Handlers that call the storage layer
take the backend outcome functions as parameters. -/

/-- Embedding of p9_handle_attach on a parsed Tattach: allocate the FID,
point it at the root with the reserved QID path 1, reply Rattach.  (The
C reads and then ignores afid/uname/aname, and sets the client state to
ATTACHED; the table-level effect is what the claims consume.) -/
def p9_handle_attach (table : p9_fid_table) (fid : Nat) : p9_fid_table × P9Reply :=
  match p9_fid_alloc table fid with
  | none => (table, .rerror "fid already in use")
  | some t1 =>
    let root_qid : p9_qid := ⟨P9_QTDIR, 0, 1⟩
    let t2 := p9_fid_update t1 fid
      (fun f => { f with type := .DIR, path := "/", qid := root_qid })
    (t2, .rattach root_qid)

/-- Embedding of p9_handle_walk on a parsed Twalk (nwname is the length
of the name list, at most P9_MAX_WALK_ELEMENTS as read by the C loop).
Zero names clones the FID; otherwise the walk runs, the new FID is
created only when every element resolved, and the reply carries the QIDs
of the resolved prefix. -/
def p9_handle_walk (sync_open : String → Except fat32_error fat32_file_meta)
    (table : p9_fid_table) (fid newfid : Nat) (names : List String) :
    p9_fid_table × P9Reply :=
  match p9_fid_get table fid with
  | none => (table, .rerror "unknown fid")
  | some src_fid =>
    if names.length = 0 then
      match p9_fid_clone table fid newfid with
      | none => (table, .rerror "cannot clone fid")
      | some t1 => (t1, .rwalk [])
    else
      let w := p9_walk_path sync_open src_fid names table
      let walked := w.1
      let qids := w.2.1
      let t1 := w.2.2
      if walked = names.length then
        match p9_fid_clone t1 fid newfid with
        | none => (t1, .rerror "cannot create new fid")
        | some t2 =>
          let final_path := walk_final_path src_fid.path names
          let last_qid := qids.getD (walked - 1) ⟨0, 0, 0⟩
          let t3 := p9_fid_update t2 newfid
            (fun f => { f with
              path := final_path
              qid := last_qid
              type := if last_qid.type / 128 % 2 = 1 then .DIR else .FILE })
          (t3, .rwalk qids)
      else
        (t1, .rwalk qids)

/-- Embedding of p9_handle_open on a parsed Topen: look the FID up, open
through p9_open_file (no validation of the mode byte happens anywhere on
this path), reply Rerror with the mapped backend string on failure and
Ropen with the FID's QID and iounit on success. -/
def p9_handle_open (sync_open : String → Except fat32_error fat32_file_meta)
    (table : p9_fid_table) (fid : Nat) (mode : Nat) : p9_fid_table × P9Reply :=
  match p9_fid_get table fid with
  | none => (table, .rerror "unknown fid")
  | some file_fid =>
    let r := p9_open_file sync_open file_fid mode
    let t1 := p9_fid_update table fid (fun _ => r.2)
    if r.1 ≠ .FAT32_OK then (t1, .rerror (fat32_error_to_string r.1))
    else (t1, .ropen r.2.qid r.2.iounit)

/-- Embedding of p9_handle_create on a parsed Tcreate: the FID must be a
directory; p9_create_file runs (mutating the FID record in place); on
success a fresh counter QID is minted whose type bit again comes from
perm & 0040000, and the reply is Rcreate with it. -/
def p9_handle_create (sync_dir_create sync_create : String → fat32_error)
    (table : p9_fid_table) (fid : Nat) (name : String) (perm mode : Nat) :
    p9_fid_table × P9Reply :=
  match p9_fid_get table fid with
  | none => (table, .rerror "unknown fid")
  | some dir_fid =>
    if dir_fid.type ≠ .DIR then (table, .rerror "not a directory")
    else
      let r := p9_create_file sync_dir_create sync_create dir_fid name perm mode
      let t1 := p9_fid_update table fid (fun _ => r.2)
      if r.1 ≠ .FAT32_OK then (t1, .rerror (fat32_error_to_string r.1))
      else
        let n := p9_fid_next_qid_path t1
        let dir_bit := perm / 16384 % 2
        let new_qid : p9_qid := ⟨if dir_bit = 1 then P9_QTDIR else P9_QTFILE, 0, n.1⟩
        let t3 := p9_fid_update n.2 fid (fun f => { f with qid := new_qid })
        (t3, .rcreate new_qid r.2.iounit)

/-- Embedding of p9_handle_remove on a parsed Tremove: unknown FIDs get
Rerror; otherwise the synchronized delete runs on the FID's path, the
FID is freed regardless of the outcome, and the reply is Rremove on
FAT32_OK or Rerror with the mapped backend string otherwise. -/
def p9_handle_remove (sync_delete : String → fat32_error) (table : p9_fid_table)
    (fid : Nat) : p9_fid_table × P9Reply :=
  match p9_fid_get table fid with
  | none => (table, .rerror "unknown fid")
  | some file_fid =>
    let err := sync_delete file_fid.path
    let t1 := p9_fid_free table fid
    if err ≠ .FAT32_OK then (t1, .rerror (fat32_error_to_string err))
    else (t1, .rremove)

/-! ## Well-formedness of a FID table

p9_fid_alloc refuses a fid number that is already in use, so in every
reachable table the in-use slots carry pairwise distinct numbers; the
first-match scans of get/update/free rely on that. -/

/-- In-use slots carry pairwise distinct fid numbers. -/
abbrev p9_table_wf (table : p9_fid_table) : Prop :=
  table.fids.Pairwise (fun a b => a.in_use = true → b.in_use = true → a.fid ≠ b.fid)

/-! ## Concrete instances used by the counterexamples and witnesses -/

/-- A freshly accepted session's client record (p9_tcp_accept zeroes the
client, sets CONNECTED, max_msg_size = P9_MAX_MSG_SIZE, and runs
p9_fid_table_init). -/
def c_connected : p9_client :=
  { state := .CONNECTED, max_msg_size := P9_MAX_MSG_SIZE, version := ""
    fid_table := p9_fid_table_init }

/-- A session table directly after a successful Tattach of fid 0. -/
def t_attached : p9_fid_table := (p9_handle_attach p9_fid_table_init 0).1

/-- The root slot record Tattach leaves behind for fid 0. -/
def root_fid0 : p9_fid :=
  { in_use := true, type := .DIR, fid := 0, qid := ⟨P9_QTDIR, 0, 1⟩, path := "/"
    file_is_open := false, iounit := 0, mode := 0 }

/-- An attached client that then negotiated the version successfully. -/
def c2_client : p9_client :=
  { state := .ATTACHED, max_msg_size := P9_MAX_MSG_SIZE, version := "9P2000.u"
    fid_table := t_attached }

/-- A 257-byte receive buffer whose size field decodes to 257: one byte
more than an msize of 256 a client may have negotiated. -/
def c4_rx : List Nat := 1 :: 1 :: 0 :: 0 :: List.replicate 253 0

/-- A small zeroed message buffer for codec witnesses. -/
def msg0 : p9_msg := { data := List.replicate 32 0, capacity := 32, pos := 0, error := false }

/-- A message buffer holding the wire string "abcde" (length 5) at the
cursor, for the p9_read_string_buf witness. -/
def msg_str5 : p9_msg :=
  { data := [5, 0, 97, 98, 99, 100, 101, 0], capacity := 8, pos := 0, error := false }

/-! # Theorems -/

set_option maxRecDepth 16384

/-! ## C2 — version negotiation and the FID table -/

/-- C2 counterexample.  The claim states that after a successful version
negotiation the session's FID table is empty.  On a session that holds
FID 0 (attached root), a Tversion that succeeds (state moves to
VERSION_NEGOTIATED, "9P2000.u" echoed) leaves FID 0 alive: the handler
never touches the table. -/
theorem C2_counterexample :
    (p9_handle_version c2_client 8192 "9P2000.u").1.state = .VERSION_NEGOTIATED ∧
    (p9_handle_version c2_client 8192 "9P2000.u").2 = .rversion 8192 "9P2000.u" ∧
    (p9_fid_get (p9_handle_version c2_client 8192 "9P2000.u").1.fid_table 0).isSome = true := by
  decide

/-- C2 amended: a version negotiation (successful or not) leaves the FID
table exactly as it was — prior FIDs are never discarded by
p9_handle_version; they live until clunk/remove/session close.  A
request with version string "9P2000.u" does succeed and moves the
session to VERSION_NEGOTIATED. -/
theorem C2_version_keeps_fid_table (client : p9_client) (msize : Nat) (version : String) :
    (p9_handle_version client msize version).1.fid_table = client.fid_table ∧
    (version = "9P2000.u" →
      (p9_handle_version client msize version).1.state = .VERSION_NEGOTIATED ∧
      (p9_handle_version client msize version).2 =
        .rversion (if msize > P9_MAX_MSG_SIZE then P9_MAX_MSG_SIZE else msize) version) := by
  by_cases hv : version = "9P2000.u" <;> by_cases hm : msize > P9_MAX_MSG_SIZE <;>
    simp [p9_handle_version, hv, hm]

/-- C2 witness: the amended theorem applied to the concrete attached
client at msize 8192. -/
theorem C2_version_keeps_fid_table_witness :
    (p9_handle_version c2_client 8192 "9P2000.u").1.fid_table = c2_client.fid_table ∧
    ("9P2000.u" = "9P2000.u" →
      (p9_handle_version c2_client 8192 "9P2000.u").1.state = .VERSION_NEGOTIATED ∧
      (p9_handle_version c2_client 8192 "9P2000.u").2 =
        .rversion (if 8192 > P9_MAX_MSG_SIZE then P9_MAX_MSG_SIZE else 8192) "9P2000.u") :=
  C2_version_keeps_fid_table c2_client 8192 "9P2000.u"

/-! ## C3 — uniqueness of emitted QID paths -/

/-- C3 counterexample.  The claim states that every QID path a session
emits is distinct from every other and in particular never collides with
the root's reserved path 1.  But p9_fid_table_init starts the counter at
1 and p9_fid_next_qid_path post-increments, so the very first
counter-materialized QID (first resolved walk element, stat, or
directory entry) carries path 1, the same value Tattach just emitted for
the root. -/
theorem C3_counterexample :
    sessionEmittedQids [.attach, .materialize] = [1, 1] ∧
    ¬ (sessionEmittedQids [.attach, .materialize]).Nodup ∧
    p9_fid_table_init.next_qid_path = 1 := by
  decide

/-- The counter-materialized QID paths of an event sequence are the
consecutive integers starting at the table's counter, as long as the
uint32_t counter does not wrap during the sequence (counter + number of
draws stays within 2^32). -/
theorem materializeEmits_eq (es : List QidEvent) :
    ∀ t : p9_fid_table, t.next_qid_path + es.count .materialize ≤ 4294967296 →
      materializeEmits es t = List.range' t.next_qid_path (es.count .materialize) := by
  induction es with
  | nil => intro t _; rfl
  | cons e rest ih =>
    intro t hbound
    cases e with
    | attach =>
      have hc : (QidEvent.attach :: rest).count .materialize = rest.count .materialize := by
        simp
      rw [hc] at hbound
      simp only [materializeEmits, runQidEvents, List.zip_cons_cons, List.filterMap_cons,
        List.count_cons]
      simpa [materializeEmits] using ih t hbound
    | materialize =>
      have hc : (QidEvent.materialize :: rest).count .materialize =
          rest.count .materialize + 1 := by
        simp
      rw [hc] at hbound
      have hbound2 : ((t.next_qid_path + 1) % 4294967296) + rest.count .materialize ≤
          4294967296 := by
        omega
      have h := ih { t with next_qid_path := (t.next_qid_path + 1) % 4294967296 } hbound2
      simp only [materializeEmits] at h
      have hrange : List.range' ((t.next_qid_path + 1) % 4294967296)
          (rest.count .materialize) =
          List.range' (t.next_qid_path + 1) (rest.count .materialize) := by
        rcases Nat.eq_zero_or_pos (rest.count .materialize) with h0 | hpos
        · rw [h0]
          rfl
        · rw [Nat.mod_eq_of_lt (by omega)]
      rw [hrange] at h
      simp only [materializeEmits, runQidEvents, List.zip_cons_cons, List.filterMap_cons,
        List.count_cons, p9_fid_next_qid_path]
      simp [h, List.range'_succ]

/-- C3 amended: within one session the QID paths drawn from the counter
(walk elements, stats, creates, directory entries) are pairwise
distinct — they are consecutive counter values — for as long as the
uint32_t counter does not wrap, i.e. for up to 2^32 − counter draws
(beyond that the counter wraps modulo 2^32 and paths repeat); moreover
the counter of a fresh table starts at 1, so its first value coincides
with the reserved root path 1 that attach emits (see the
counterexample); emitted paths are therefore unique only among the
counter-materialized ones of a non-wrapping session. -/
theorem C3_materialized_paths_distinct (es : List QidEvent) (t : p9_fid_table)
    (hbound : t.next_qid_path + es.count .materialize ≤ 4294967296) :
    materializeEmits es t = List.range' t.next_qid_path (es.count .materialize) ∧
    (materializeEmits es t).Nodup := by
  refine ⟨materializeEmits_eq es t hbound, ?_⟩
  rw [materializeEmits_eq es t hbound]
  exact List.nodup_range' t.next_qid_path (es.count .materialize)

/-- C3 witness: a fresh session drawing two counter QIDs after an attach
emits the distinct paths 1 and 2 for them. -/
theorem C3_materialized_paths_distinct_witness :
    materializeEmits [.attach, .materialize, .materialize] p9_fid_table_init =
      List.range' p9_fid_table_init.next_qid_path
        (([.attach, .materialize, .materialize] : List QidEvent).count .materialize) ∧
    (materializeEmits [.attach, .materialize, .materialize] p9_fid_table_init).Nodup :=
  C3_materialized_paths_distinct [.attach, .materialize, .materialize] p9_fid_table_init
    (by decide)

/-! ## C4 — framing against the negotiated msize -/

/-- C4 counterexample.  The claim states that a buffered message of size
S is dispatched only when S is at most the session's negotiated msize,
and that S = msize + 1 terminates the session.  After negotiating
msize = 256, a 257-byte message (size field 257) is dispatched — the
framing code in p9_tcp_recv compares S against the compile-time
P9_MAX_MSG_SIZE, never against client->max_msg_size. -/
theorem C4_counterexample :
    (p9_handle_version c_connected 256 "9P2000.u").1.max_msg_size = 256 ∧
    c4_rx.length = 257 ∧
    p9_frame_decision (p9_handle_version c_connected 256 "9P2000.u").1.max_msg_size c4_rx =
      .OneComplete 257 ∧
    p9_frame_decision (p9_handle_version c_connected 256 "9P2000.u").1.max_msg_size c4_rx ≠
      .Terminate := by
  decide

/-- C4 amended: for every negotiated msize, a buffered prefix is
dispatched as one complete message iff at least 4 bytes are present, the
first 4 bytes decode (little-endian) to S with 7 ≤ S ≤ P9_MAX_MSG_SIZE
(the compile-time ceiling 8192, not the negotiated msize), and S bytes
are present; the session is terminated iff 4 bytes are present and S < 7
or S > P9_MAX_MSG_SIZE; otherwise the framer waits for more bytes. -/
theorem C4_frame_characterization (max_msg_size : Nat) (rx : List Nat) (S : Nat)
    (hS : S = rx.getD 0 0 + rx.getD 1 0 * 256 + rx.getD 2 0 * 65536 + rx.getD 3 0 * 16777216) :
    (p9_frame_decision max_msg_size rx = .OneComplete S ↔
      4 ≤ rx.length ∧ 7 ≤ S ∧ S ≤ P9_MAX_MSG_SIZE ∧ S ≤ rx.length) ∧
    (p9_frame_decision max_msg_size rx = .Terminate ↔
      4 ≤ rx.length ∧ (S < 7 ∨ P9_MAX_MSG_SIZE < S)) ∧
    (p9_frame_decision max_msg_size rx = .NeedMore ↔
      rx.length < 4 ∨ (7 ≤ S ∧ S ≤ P9_MAX_MSG_SIZE ∧ rx.length < S)) := by
  subst hS
  unfold p9_frame_decision
  dsimp only
  split_ifs with h1 h2 h3 <;>
    simp_all [P9_MAX_MSG_SIZE] <;> omega

/-- C4 witness: the characterization applied to the concrete 257-byte
buffer with the negotiated msize 256 recovers the dispatch decision. -/
theorem C4_frame_characterization_witness :
    p9_frame_decision 256 c4_rx = .OneComplete 257 := by
  have h := C4_frame_characterization 256 c4_rx 257 (by decide)
  exact h.1.mpr (by decide)

/-! ## FID-table lemmas -/

/-- A first-match update whose payload keeps the slot matching commutes
with the first-match lookup. -/
theorem find?_set_first_keep (p : p9_fid → Bool) (upd : p9_fid → p9_fid)
    (hupd : ∀ f, p f = true → p (upd f) = true) :
    ∀ l : List p9_fid, (set_first p upd l).find? p = (l.find? p).map upd := by
  intro l
  induction l with
  | nil => rfl
  | cons f rest ih =>
    by_cases hf : p f = true
    · rw [set_first, if_pos hf, List.find?_cons_of_pos _ (hupd f hf),
        List.find?_cons_of_pos _ hf, Option.map_some']
    · rw [set_first, if_neg hf, List.find?_cons_of_neg _ (by simpa using hf),
        List.find?_cons_of_neg _ (by simpa using hf), ih]

/-- Releasing the first slot matching a fid number leaves no matching
slot, provided in-use numbers are pairwise distinct. -/
theorem find?_set_first_kill (n : Nat) :
    ∀ l : List p9_fid,
      l.Pairwise (fun a b => a.in_use = true → b.in_use = true → a.fid ≠ b.fid) →
      (set_first (p9_fid_match n) (fun f => { f with in_use := false }) l).find?
        (p9_fid_match n) = none := by
  intro l
  induction l with
  | nil => intro _; rfl
  | cons f rest ih =>
    intro hpw
    by_cases hf : p9_fid_match n f = true
    · have hand := (Bool.and_eq_true _ _).mp hf
      have hfu : f.in_use = true ∧ f.fid = n := ⟨hand.1, eq_of_beq hand.2⟩
      rw [set_first, if_pos hf,
        List.find?_cons_of_neg _ (by simp [p9_fid_match]), List.find?_eq_none]
      intro x hx hpx
      have hxu : x.in_use = true := ((Bool.and_eq_true _ _).mp hpx).1
      have hxn : x.fid = n := eq_of_beq ((Bool.and_eq_true _ _).mp hpx).2
      exact (List.pairwise_cons.mp hpw).1 x hx hfu.1 hxu (hfu.2.trans hxn.symm)
    · rw [set_first, if_neg hf, List.find?_cons_of_neg _ (by simpa using hf)]
      exact ih (List.pairwise_cons.mp hpw).2

/-- p9_fid_free really removes the number from the table. -/
theorem fid_get_free_eq_none (table : p9_fid_table) (n : Nat) (hwf : p9_table_wf table) :
    p9_fid_get (p9_fid_free table n) n = none := by
  unfold p9_fid_free
  cases hg : p9_fid_get table n with
  | none => exact hg
  | some f => exact find?_set_first_kill n table.fids hwf

/-- Table-level form of find?_set_first_keep. -/
theorem fid_get_update_keep (table : p9_fid_table) (n : Nat) (upd : p9_fid → p9_fid)
    (hupd : ∀ f, p9_fid_match n f = true → p9_fid_match n (upd f) = true) :
    p9_fid_get (p9_fid_update table n upd) n = (p9_fid_get table n).map upd :=
  find?_set_first_keep _ upd hupd table.fids

/-- A number whose slot scan comes up empty is not in the table. -/
theorem fid_get_eq_none_of_any_false (table : p9_fid_table) (n : Nat)
    (h : table.fids.any (p9_fid_match n) = false) : p9_fid_get table n = none := by
  unfold p9_fid_get
  rw [List.find?_eq_none]
  intro x hx hpx
  have hany : table.fids.any (p9_fid_match n) = true := List.any_eq_true.mpr ⟨x, hx, hpx⟩
  rw [h] at hany
  cases hany

/-- The record p9_fid_get finds satisfies the match predicate. -/
theorem fid_get_match (table : p9_fid_table) (n : Nat) (f : p9_fid)
    (h : p9_fid_get table n = some f) : f.in_use = true ∧ f.fid = n := by
  have hp := List.find?_some h
  exact ⟨((Bool.and_eq_true _ _).mp hp).1,
    eq_of_beq ((Bool.and_eq_true _ _).mp hp).2⟩

/-! ## C7 — remove destroys the FID unconditionally -/

/-- C7: for every Tremove on a known FID, the FID is gone from the table
afterwards whatever the backend said; the reply is Rremove on success
and Rerror with the mapped backend string on failure; and a subsequent
request naming the FID (here: another Tremove) gets "unknown fid". -/
theorem C7_remove_always_frees (sync_delete sync_delete2 : String → fat32_error)
    (table : p9_fid_table) (fid : Nat) (file_fid : p9_fid)
    (hget : p9_fid_get table fid = some file_fid) (hwf : p9_table_wf table) :
    p9_fid_get (p9_handle_remove sync_delete table fid).1 fid = none ∧
    (p9_handle_remove sync_delete table fid).2 =
      (if sync_delete file_fid.path = .FAT32_OK then .rremove
       else .rerror (fat32_error_to_string (sync_delete file_fid.path))) ∧
    (p9_handle_remove sync_delete2 (p9_handle_remove sync_delete table fid).1 fid).2 =
      .rerror "unknown fid" := by
  have h1 : (p9_handle_remove sync_delete table fid).1 = p9_fid_free table fid := by
    unfold p9_handle_remove
    rw [hget]
    dsimp only
    split <;> rfl
  have hnone : p9_fid_get (p9_fid_free table fid) fid = none :=
    fid_get_free_eq_none table fid hwf
  refine ⟨h1 ▸ hnone, ?_, ?_⟩
  · unfold p9_handle_remove
    rw [hget]
    dsimp only
    by_cases he : sync_delete file_fid.path = .FAT32_OK <;> simp [he]
  · rw [h1]
    unfold p9_handle_remove
    rw [hnone]

/-- C7 witness: removing the attached root FID 0 with a backend that
refuses ("directory not empty") still destroys FID 0, replies with the
backend's error string, and a second Tremove gets "unknown fid". -/
theorem C7_remove_always_frees_witness :
    p9_fid_get (p9_handle_remove (fun _ => .FAT32_ERROR_DIR_NOT_EMPTY) t_attached 0).1 0 =
      none ∧
    (p9_handle_remove (fun _ => .FAT32_ERROR_DIR_NOT_EMPTY) t_attached 0).2 =
      (if (fun _ => fat32_error.FAT32_ERROR_DIR_NOT_EMPTY) root_fid0.path = .FAT32_OK then
        .rremove
       else .rerror (fat32_error_to_string
        ((fun _ => fat32_error.FAT32_ERROR_DIR_NOT_EMPTY) root_fid0.path))) ∧
    (p9_handle_remove (fun _ => .FAT32_OK)
        (p9_handle_remove (fun _ => .FAT32_ERROR_DIR_NOT_EMPTY) t_attached 0).1 0).2 =
      .rerror "unknown fid" :=
  C7_remove_always_frees (fun _ => .FAT32_ERROR_DIR_NOT_EMPTY) (fun _ => .FAT32_OK)
    t_attached 0 root_fid0 (by decide) (by decide)

/-! ## C8 — open-mode validation -/

/-- C8 counterexample.  The claim states the Topen mode byte is
validated and that a write or read-write open of a directory is rejected
with Rerror.  FID 0 of t_attached is the root directory; a Topen with
mode 1 (OWRITE) succeeds with Ropen, as does the impossible mode byte
0xFF — p9_handle_open and p9_open_file never examine the mode. -/
theorem C8_counterexample :
    (p9_handle_open (fun _ => .ok ⟨true⟩) t_attached 0 1).2 =
      .ropen ⟨P9_QTDIR, 0, 1⟩ 8192 ∧
    (p9_handle_open (fun _ => .ok ⟨true⟩) t_attached 0 1).2.is_error = false ∧
    (p9_handle_open (fun _ => .ok ⟨true⟩) t_attached 0 0xFF).2.is_error = false ∧
    root_fid0.type = .DIR := by
  decide

/-- C8 amended: the mode byte is not validated at all.  Whenever the
backend open of the FID's path succeeds, any mode — write modes on
directories and impossible bit combinations included — is accepted,
recorded verbatim in the FID, and answered with Ropen; Rerror appears
only when the backend open itself fails, carrying that error's string. -/
theorem C8_open_accepts_any_mode (sync_open : String → Except fat32_error fat32_file_meta)
    (table : p9_fid_table) (fid mode : Nat) (file_fid : p9_fid)
    (hget : p9_fid_get table fid = some file_fid) :
    (∀ meta, sync_open file_fid.path = .ok meta →
      (p9_handle_open sync_open table fid mode).2 = .ropen file_fid.qid 8192 ∧
      p9_fid_get (p9_handle_open sync_open table fid mode).1 fid =
        some { file_fid with mode := mode, iounit := 8192, file_is_open := true }) ∧
    (∀ e, e ≠ .FAT32_OK → sync_open file_fid.path = .error e →
      (p9_handle_open sync_open table fid mode).2 = .rerror (fat32_error_to_string e)) := by
  have hm := fid_get_match table fid file_fid hget
  constructor
  · intro meta hok
    unfold p9_handle_open p9_open_file
    rw [hget]
    dsimp only
    rw [hok]
    dsimp only
    rw [if_neg (by simp)]
    refine ⟨rfl, ?_⟩
    dsimp only
    rw [fid_get_update_keep, hget]
    · rfl
    · intro f _
      simp [p9_fid_match, hm.1, hm.2]
  · intro e he herr
    unfold p9_handle_open p9_open_file
    rw [hget]
    dsimp only
    rw [herr]
    simp [he]

/-- C8 witness: opening the root directory FID with mode 0 through a
succeeding backend yields Ropen with the root QID and iounit 8192. -/
theorem C8_open_accepts_any_mode_witness :
    (p9_handle_open (fun _ => Except.ok ⟨false⟩) t_attached 0 0).2 =
      .ropen root_fid0.qid 8192 :=
  ((C8_open_accepts_any_mode (fun _ => Except.ok ⟨false⟩) t_attached 0 0 root_fid0
    (by decide)).1 ⟨false⟩ rfl).1

/-! ## C9 — the error string surfaced by a storage-lock timeout -/

/-- C9 counterexample.  The claim states a storage-lock timeout surfaces
to the client as Rerror "storage busy".  A timed-out
fat32_sync_lock makes every fat32_sync_* wrapper return
FAT32_ERROR_INIT_FAILED, and fat32_error_to_string maps that to
"initialization failed"; the string "storage busy" does not exist in the
code. -/
theorem C9_counterexample :
    (p9_handle_open (fat32_sync_open false (fun _ => .ok ⟨true⟩)) t_attached 0 0).2 =
      .rerror "initialization failed" ∧
    (p9_handle_open (fat32_sync_open false (fun _ => .ok ⟨true⟩)) t_attached 0 0).2 ≠
      .rerror "storage busy" := by
  decide

/-- C9 amended: on a known FID, a storage-lock acquisition timeout
(modelled by lock_ok = false in the fat32_sync_* wrappers) makes the
request fail with Rerror "initialization failed" — the mapping of
FAT32_ERROR_INIT_FAILED — for both Topen and Tremove, whatever the
underlying driver would have answered. -/
theorem C9_lock_timeout_string (fat32_open : Fat32Open)
    (fat32_delete : String → fat32_error) (table : p9_fid_table) (fid mode : Nat)
    (file_fid : p9_fid) (hget : p9_fid_get table fid = some file_fid) :
    (p9_handle_open (fat32_sync_open false fat32_open) table fid mode).2 =
      .rerror "initialization failed" ∧
    (p9_handle_remove (fat32_sync_delete false fat32_delete) table fid).2 =
      .rerror "initialization failed" := by
  constructor
  · unfold p9_handle_open p9_open_file fat32_sync_open
    rw [hget]
    simp [fat32_error_to_string]
  · unfold p9_handle_remove fat32_sync_delete
    rw [hget]
    simp [fat32_error_to_string]

/-- C9 witness: the amended theorem at the concrete attached table. -/
theorem C9_lock_timeout_string_witness :
    (p9_handle_open (fat32_sync_open false (fun _ => Except.ok ⟨true⟩)) t_attached 0 0).2 =
      .rerror "initialization failed" ∧
    (p9_handle_remove (fat32_sync_delete false (fun _ => .FAT32_OK)) t_attached 0).2 =
      .rerror "initialization failed" :=
  C9_lock_timeout_string (fun _ => Except.ok ⟨true⟩) (fun _ => .FAT32_OK) t_attached 0 0
    root_fid0 (by decide)

/-! ## C5 — which perm bit selects directory creation -/

/-- C5 counterexample.  The claim states Tcreate creates a directory iff
perm carries 0x80000000.  With perm = 0x80000000, a backend whose
dir_create refuses (disk full) but whose file create succeeds, the
request nevertheless succeeds — p9_create_file tested perm & 0040000
(octal, 0x4000) and took the plain-file branch — and the Rcreate QID
carries the plain-file type 0x00, not the directory bit. -/
theorem C5_counterexample :
    (p9_handle_create (fun _ => .FAT32_ERROR_DISK_FULL) (fun _ => .FAT32_OK)
      t_attached 0 "f" 0x80000000 0).2 = .rcreate ⟨P9_QTFILE, 0, 1⟩ 8192 ∧
    ((p9_fid_get (p9_handle_create (fun _ => .FAT32_ERROR_DISK_FULL) (fun _ => .FAT32_OK)
      t_attached 0 "f" 0x80000000 0).1 0).getD p9_fid_zero).type = .FILE ∧
    (0x80000000 : Nat) / 16384 % 2 = 0 := by
  decide

/-- C5 amended: the bit that selects directory creation is 0x4000 (the C
source's octal 0040000), not 0x80000000: on a directory FID, when bit 14
of perm is set and the backend dir_create succeeds the reply is Rcreate
with a directory-typed QID and the FID becomes a directory; when bit 14
is clear and the backend file create succeeds the reply is Rcreate with
a file-typed QID and the FID becomes a plain file. -/
theorem C5_create_selects_on_bit14 (sync_dir_create sync_create : String → fat32_error)
    (table : p9_fid_table) (fid : Nat) (name : String) (perm mode : Nat)
    (dir_fid : p9_fid) (hget : p9_fid_get table fid = some dir_fid)
    (hdir : dir_fid.type = .DIR) :
    (perm / 16384 % 2 = 1 →
      sync_dir_create (p9_join_path dir_fid.path name) = .FAT32_OK →
      (p9_handle_create sync_dir_create sync_create table fid name perm mode).2 =
        .rcreate ⟨P9_QTDIR, 0, table.next_qid_path⟩ 8192) ∧
    (perm / 16384 % 2 = 0 →
      sync_create (p9_join_path dir_fid.path name) = .FAT32_OK →
      (p9_handle_create sync_dir_create sync_create table fid name perm mode).2 =
        .rcreate ⟨P9_QTFILE, 0, table.next_qid_path⟩ 8192) := by
  constructor
  · intro hbit hok
    simp [p9_handle_create, p9_create_file, p9_fid_next_qid_path, p9_fid_update,
      hget, hdir, hbit, hok]
  · intro hbit hok
    simp [p9_handle_create, p9_create_file, p9_fid_next_qid_path, p9_fid_update,
      hget, hdir, hbit, hok]

/-- C5 witness: creating under the root FID with perm = 0x4000 (bit 14
set) and a succeeding backend dir_create yields a directory-typed
Rcreate QID. -/
theorem C5_create_selects_on_bit14_witness :
    (p9_handle_create (fun _ => .FAT32_OK) (fun _ => .FAT32_ERROR_DISK_FULL)
      t_attached 0 "d" 0x4000 0).2 = .rcreate ⟨P9_QTDIR, 0, t_attached.next_qid_path⟩ 8192 :=
  (C5_create_selects_on_bit14 (fun _ => .FAT32_OK) (fun _ => .FAT32_ERROR_DISK_FULL)
    t_attached 0 "d" 0x4000 0 root_fid0 (by decide) (by decide)).1 (by decide) rfl

/-! ## C1 — walk replies and newfid creation -/

/-- The walk loop touches only the QID counter, never the slots. -/
theorem walk_path_go_fids (sync_open : String → Except fat32_error fat32_file_meta)
    (names : List String) :
    ∀ cur table, (p9_walk_path_go sync_open cur names table).2.2.fids = table.fids := by
  induction names with
  | nil => intro cur table; rfl
  | cons name rest ih =>
    intro cur table
    unfold p9_walk_path_go
    dsimp only
    cases h : sync_open (p9_join_path cur name) with
    | error e => rfl
    | ok meta =>
      dsimp only
      exact ih (p9_join_path cur name) _

/-- The walk returns exactly one QID per walked element. -/
theorem walk_path_go_len (sync_open : String → Except fat32_error fat32_file_meta)
    (names : List String) :
    ∀ cur table, (p9_walk_path_go sync_open cur names table).2.1.length =
      (p9_walk_path_go sync_open cur names table).1 := by
  induction names with
  | nil => intro cur table; rfl
  | cons name rest ih =>
    intro cur table
    unfold p9_walk_path_go
    dsimp only
    cases h : sync_open (p9_join_path cur name) with
    | error e => rfl
    | ok meta =>
      dsimp only
      simp [ih]

/-- Claiming the first free slot for an unused number makes that number
findable, carrying the zeroed record. -/
theorem find?_set_first_fresh (n : Nat) :
    ∀ l : List p9_fid, l.any (p9_fid_match n) = false →
      l.any (fun f => !f.in_use) = true →
      (set_first (fun f => !f.in_use)
          (fun _ => { p9_fid_zero with in_use := true, fid := n }) l).find?
        (p9_fid_match n) = some { p9_fid_zero with in_use := true, fid := n } := by
  intro l
  induction l with
  | nil => intro _ hfree; cases hfree
  | cons f rest ih =>
    intro hno hfree
    simp only [List.any_cons, Bool.or_eq_false_iff] at hno
    by_cases hf : f.in_use = true
    · rw [set_first, if_neg (by simp [hf])]
      rw [List.find?_cons_of_neg _ (by simp [hno.1])]
      exact ih hno.2 (by simpa [hf] using hfree)
    · have hnu : (!f.in_use) = true := by
        simp [Bool.not_eq_true] at hf
        simp [hf]
      rw [set_first, if_pos hnu]
      rw [List.find?_cons_of_pos _ (by simp [p9_fid_match])]

/-- p9_fid_alloc on an unused number with a free slot succeeds, and the
allocated table resolves the number to the fresh zeroed record. -/
theorem fid_alloc_spec (table : p9_fid_table) (n : Nat)
    (hno : table.fids.any (p9_fid_match n) = false)
    (hfree : table.fids.any (fun f => !f.in_use) = true) :
    ∃ ta : p9_fid_table, p9_fid_alloc table n = some ta ∧
      p9_fid_get ta n = some { p9_fid_zero with in_use := true, fid := n } := by
  have halloc : p9_fid_alloc table n = some { table with
      fids := set_first (fun f => !f.in_use)
        (fun _ => { p9_fid_zero with in_use := true, fid := n }) table.fids } := by
    unfold p9_fid_alloc
    simp [hno, hfree]
  exact ⟨_, halloc, find?_set_first_fresh n table.fids hno hfree⟩

/-- The lookup only reads the slots. -/
theorem fid_get_eq_of_fids (t1 t2 : p9_fid_table) (n : Nat) (h : t1.fids = t2.fids) :
    p9_fid_get t1 n = p9_fid_get t2 n := by
  unfold p9_fid_get
  rw [h]

/-- p9_fid_clone of a live source onto an unused number with a free slot
succeeds, and the clone carries the source's type/qid/path but is
unopened (zeroed file state, iounit, mode). -/
theorem fid_clone_spec (table : p9_fid_table) (old_n new_n : Nat) (old : p9_fid)
    (hget : p9_fid_get table old_n = some old)
    (hno : table.fids.any (p9_fid_match new_n) = false)
    (hfree : table.fids.any (fun f => !f.in_use) = true) :
    ∃ t2, p9_fid_clone table old_n new_n = some t2 ∧
      p9_fid_get t2 new_n = some
        { p9_fid_zero with
          in_use := true
          fid := new_n
          type := old.type
          qid := old.qid
          path := old.path } := by
  obtain ⟨ta, halloc, hfresh⟩ := fid_alloc_spec table new_n hno hfree
  have hclone : p9_fid_clone table old_n new_n = some (p9_fid_update ta new_n
      (fun f => { f with type := old.type, qid := old.qid, path := old.path })) := by
    unfold p9_fid_clone
    rw [hget, halloc]
  refine ⟨_, hclone, ?_⟩
  rw [fid_get_update_keep, hfresh]
  · rfl
  · intro f hf
    simpa [p9_fid_match] using hf

/-- C1 counterexample.  The claim states that when the first walk element
cannot be resolved the server replies Rerror.  On the attached table
(fid 0 known and unopened) with a backend that resolves nothing,
Twalk(fid 0, newfid 1, ["x"]) is answered with Rwalk carrying zero QIDs
— not Rerror — and newfid 1 is not created. -/
theorem C1_counterexample :
    (p9_handle_walk (fun _ => .error .FAT32_ERROR_FILE_NOT_FOUND) t_attached 0 1 ["x"]).2 =
      .rwalk [] ∧
    ((p9_handle_walk (fun _ => .error .FAT32_ERROR_FILE_NOT_FOUND)
      t_attached 0 1 ["x"]).2).is_error = false ∧
    p9_fid_get (p9_handle_walk (fun _ => .error .FAT32_ERROR_FILE_NOT_FOUND)
      t_attached 0 1 ["x"]).1 1 = none := by
  decide

/-- C1 amended: for a Twalk with nwname ≥ 1 on a known FID (newfid fresh,
table not full), if element i is the first that cannot be resolved the
server replies Rwalk carrying exactly the i QIDs resolved so far — for
i = 0 as well, where the specification expected Rerror — and newfid is
not created; only when all elements resolve is newfid created, with the
final concatenated path and the last QID. -/
theorem C1_walk_reply (sync_open : String → Except fat32_error fat32_file_meta)
    (table : p9_fid_table) (fid newfid : Nat) (names : List String) (src_fid : p9_fid)
    (walked : Nat) (qids : List p9_qid) (t1 : p9_fid_table)
    (hget : p9_fid_get table fid = some src_fid)
    (hnames : names ≠ [])
    (hnewfid : table.fids.any (p9_fid_match newfid) = false)
    (hfree : table.fids.any (fun f => !f.in_use) = true)
    (hwalk : p9_walk_path sync_open src_fid names table = (walked, qids, t1)) :
    qids.length = walked ∧
    t1.fids = table.fids ∧
    (walked < names.length →
      p9_handle_walk sync_open table fid newfid names = (t1, .rwalk qids) ∧
      p9_fid_get t1 newfid = none) ∧
    (walked = names.length →
      ∃ t3 : p9_fid_table,
        p9_handle_walk sync_open table fid newfid names = (t3, .rwalk qids) ∧
        p9_fid_get t3 newfid = some
          { in_use := true
            type := if (qids.getD (walked - 1) ⟨0, 0, 0⟩).type / 128 % 2 = 1 then .DIR
              else .FILE
            fid := newfid
            qid := qids.getD (walked - 1) ⟨0, 0, 0⟩
            path := walk_final_path src_fid.path names
            file_is_open := false, iounit := 0, mode := 0 }) := by
  have hlen : qids.length = walked := by
    have h := walk_path_go_len sync_open names src_fid.path table
    rw [show p9_walk_path_go sync_open src_fid.path names table = (walked, qids, t1) from
      hwalk] at h
    exact h
  have hfids : t1.fids = table.fids := by
    have h := walk_path_go_fids sync_open names src_fid.path table
    rw [show p9_walk_path_go sync_open src_fid.path names table = (walked, qids, t1) from
      hwalk] at h
    exact h
  have hne0 : ¬(names.length = 0) := fun h => hnames (List.length_eq_zero.mp h)
  refine ⟨hlen, hfids, ?_, ?_⟩
  · intro hlt
    have hne : ¬(walked = names.length) := by omega
    constructor
    · unfold p9_handle_walk
      rw [hget]
      dsimp only
      rw [if_neg hne0,
        show p9_walk_path sync_open src_fid names table = (walked, qids, t1) from hwalk]
      dsimp only
      rw [if_neg hne]
    · rw [fid_get_eq_of_fids t1 table newfid hfids]
      exact fid_get_eq_none_of_any_false table newfid hnewfid
  · intro heq
    have hno1 : t1.fids.any (p9_fid_match newfid) = false := by rw [hfids]; exact hnewfid
    have hfree1 : t1.fids.any (fun f => !f.in_use) = true := by rw [hfids]; exact hfree
    have hget1 : p9_fid_get t1 fid = some src_fid := by
      rw [fid_get_eq_of_fids t1 table fid hfids]; exact hget
    obtain ⟨t2, hclone, hget2⟩ := fid_clone_spec t1 fid newfid src_fid hget1 hno1 hfree1
    have hhandle : p9_handle_walk sync_open table fid newfid names =
        (p9_fid_update t2 newfid (fun f => { f with
          path := walk_final_path src_fid.path names
          qid := qids.getD (walked - 1) ⟨0, 0, 0⟩
          type := if (qids.getD (walked - 1) ⟨0, 0, 0⟩).type / 128 % 2 = 1 then .DIR
            else .FILE }), .rwalk qids) := by
      unfold p9_handle_walk
      rw [hget]
      dsimp only
      rw [if_neg hne0,
        show p9_walk_path sync_open src_fid names table = (walked, qids, t1) from hwalk]
      dsimp only
      rw [if_pos heq, hclone]
    refine ⟨_, hhandle, ?_⟩
    rw [fid_get_update_keep, hget2]
    · rfl
    · intro f hf
      simpa [p9_fid_match] using hf

/-- C1 witness: the full-resolution branch at a concrete input — walking
["a"] from the attached root with a backend that resolves everything as
a plain file creates FID 1 at path "/a" with the first counter QID. -/
theorem C1_walk_reply_witness :
    p9_fid_get (p9_handle_walk (fun _ => Except.ok ⟨false⟩) t_attached 0 1 ["a"]).1 1 =
      some { in_use := true, type := .FILE, fid := 1, qid := ⟨P9_QTFILE, 0, 1⟩,
             path := "/a", file_is_open := false, iounit := 0, mode := 0 } := by
  obtain ⟨-, -, -, hfull⟩ := C1_walk_reply (fun _ => Except.ok ⟨false⟩) t_attached 0 1 ["a"]
    root_fid0 1 [⟨P9_QTFILE, 0, 1⟩] { t_attached with next_qid_path := 2 }
    (by decide) (by decide) (by decide) (by decide) (by decide)
  obtain ⟨t3, heq, hget3⟩ := hfull rfl
  rw [heq]
  dsimp only
  rw [hget3]
  decide

/-! ## Codec lemmas (C6, C10) -/

/-- Reading back the position just stored. -/
theorem getD_set_self (l : List Nat) (i a : Nat) (h : i < l.length) :
    (l.set i a).getD i 0 = a := by
  simp [List.getD, List.getElem?_set_self, h]

/-- Reading a position another store did not touch. -/
theorem getD_set_ne (l : List Nat) (i j a : Nat) (h : i ≠ j) :
    (l.set i a).getD j 0 = l.getD j 0 := by
  simp [List.getD, List.getElem?_set_ne h]

/-- Storing a byte run preserves the buffer length. -/
theorem setBytes_length (bytes : List Nat) :
    ∀ data pos, (setBytes data pos bytes).length = data.length := by
  induction bytes with
  | nil => intro data pos; rfl
  | cons b rest ih =>
    intro data pos
    rw [setBytes, ih]
    exact List.length_set data pos _

/-- Positions below a byte run are untouched by it. -/
theorem setBytes_getD_lt (bytes : List Nat) :
    ∀ data pos j, j < pos → (setBytes data pos bytes).getD j 0 = data.getD j 0 := by
  induction bytes with
  | nil => intro data pos j _; rfl
  | cons b rest ih =>
    intro data pos j h
    rw [setBytes, ih _ _ _ (by omega), getD_set_ne _ _ _ _ (by omega)]

/-- Reading inside a stored byte run returns the stored byte. -/
theorem setBytes_getD (bytes : List Nat) :
    ∀ data pos i, i < bytes.length → pos + bytes.length ≤ data.length →
      (setBytes data pos bytes).getD (pos + i) 0 = bytes.getD i 0 % 256 := by
  induction bytes with
  | nil =>
    intro data pos i h _
    exact absurd h (by simp)
  | cons b rest ih =>
    intro data pos i hi hb
    have hb' : pos + rest.length + 1 ≤ data.length := by
      simpa [Nat.add_assoc, Nat.add_comm] using hb
    rw [setBytes]
    cases i with
    | zero =>
      simp only [Nat.add_zero]
      rw [setBytes_getD_lt rest, getD_set_self] <;> first | rfl | omega
    | succ j =>
      have hrw : pos + (j + 1) = (pos + 1) + j := by omega
      have hj : j < rest.length := by simpa using hi
      have hb2 : pos + 1 + rest.length ≤ (data.set pos (b % 256)).length := by
        simp
        omega
      rw [hrw, ih (data.set pos (b % 256)) (pos + 1) j hj hb2]
      rfl

/-- The slice read back over a stored byte run of in-range bytes is the
run itself. -/
theorem slice_setBytes (data : List Nat) (pos : Nat) (s : List Nat)
    (hb : pos + s.length ≤ data.length) (hbytes : ∀ b ∈ s, b < 256) :
    ((setBytes data pos s).drop pos).take s.length = s := by
  have hL : (setBytes data pos s).length = data.length := setBytes_length s data pos
  apply List.ext_getElem
  · simp [hL]
    omega
  · intro i h1 h2
    have hi : i < s.length := h2
    have hgd : (setBytes data pos s).getD (pos + i) 0 = s.getD i 0 % 256 :=
      setBytes_getD s data pos i hi hb
    have hsi : s.getD i 0 = s[i] := List.getD_eq_getElem s 0 hi
    have hlt : s[i] < 256 := hbytes _ (List.getElem_mem hi)
    have hix : pos + i < (setBytes data pos s).length := by omega
    rw [List.getElem_take _, List.getElem_drop _]
    have hgd2 : (setBytes data pos s).getD (pos + i) 0 = (setBytes data pos s)[pos + i] :=
      List.getD_eq_getElem _ 0 hix
    rw [← hgd2, hgd, hsi, Nat.mod_eq_of_lt hlt]

/-- Double reduction mod 256 collapses. -/
theorem mod256_mod256 (x : Nat) : x % 256 % 256 = x % 256 :=
  Nat.mod_mod_of_dvd x dvd_rfl

/-- Successful p9_write_u8 as a byte-run store. -/
theorem write_u8_eq (msg : p9_msg) (v : Nat)
    (herr : msg.error = false) (hcap : msg.pos + 1 ≤ msg.capacity) :
    p9_write_u8 msg v =
      (true, { msg with data := setBytes msg.data msg.pos [v], pos := msg.pos + 1 }) := by
  have hg : (msg.error || decide (msg.pos + 1 > msg.capacity)) = false := by
    rw [herr]
    simp
    omega
  unfold p9_write_u8
  rw [hg]
  simp [setBytes]

/-- Successful p9_write_u16 as a byte-run store. -/
theorem write_u16_eq (msg : p9_msg) (v : Nat)
    (herr : msg.error = false) (hcap : msg.pos + 2 ≤ msg.capacity) :
    p9_write_u16 msg v =
      (true, { msg with
        data := setBytes msg.data msg.pos [v % 256, v / 256 % 256]
        pos := msg.pos + 2 }) := by
  have hg : (msg.error || decide (msg.pos + 2 > msg.capacity)) = false := by
    rw [herr]
    simp
    omega
  unfold p9_write_u16
  rw [hg]
  simp [setBytes, mod256_mod256]

/-- Successful p9_write_u32 as a byte-run store. -/
theorem write_u32_eq (msg : p9_msg) (v : Nat)
    (herr : msg.error = false) (hcap : msg.pos + 4 ≤ msg.capacity) :
    p9_write_u32 msg v =
      (true, { msg with
        data := setBytes msg.data msg.pos
          [v % 256, v / 256 % 256, v / 65536 % 256, v / 16777216 % 256]
        pos := msg.pos + 4 }) := by
  have hg : (msg.error || decide (msg.pos + 4 > msg.capacity)) = false := by
    rw [herr]
    simp
    omega
  unfold p9_write_u32
  rw [hg]
  simp [setBytes, mod256_mod256]

/-- Successful p9_write_u64 as a byte-run store. -/
theorem write_u64_eq (msg : p9_msg) (v : Nat)
    (herr : msg.error = false) (hcap : msg.pos + 8 ≤ msg.capacity) :
    p9_write_u64 msg v =
      (true, { msg with
        data := setBytes msg.data msg.pos
          [v % 256, v / 256 % 256, v / 65536 % 256, v / 16777216 % 256,
           v / 4294967296 % 256, v / 1099511627776 % 256, v / 281474976710656 % 256,
           v / 72057594037927936 % 256]
        pos := msg.pos + 8 }) := by
  have hg : (msg.error || decide (msg.pos + 8 > msg.capacity)) = false := by
    rw [herr]
    simp
    omega
  unfold p9_write_u64
  rw [hg]
  simp [setBytes, mod256_mod256]

/-- p9_read_u8 on a buffer holding the byte at the cursor. -/
theorem read_u8_window (m : p9_msg) (v : Nat)
    (herr : m.error = false) (hcap : m.pos + 1 ≤ m.capacity) (hv : v < 256)
    (h0 : m.data.getD m.pos 0 = v) :
    p9_read_u8 m = (v, { m with pos := m.pos + 1 }) := by
  have hg : (m.error || decide (m.pos + 1 > m.capacity)) = false := by
    rw [herr]
    simp
    omega
  unfold p9_read_u8
  rw [hg]
  simp only [Bool.false_eq_true, if_false, h0]

/-- p9_read_u16 on a buffer holding the little-endian bytes of v at the
cursor. -/
theorem read_u16_window (m : p9_msg) (v : Nat)
    (herr : m.error = false) (hcap : m.pos + 2 ≤ m.capacity) (hv : v < 65536)
    (h0 : m.data.getD m.pos 0 = v % 256)
    (h1 : m.data.getD (m.pos + 1) 0 = v / 256 % 256) :
    p9_read_u16 m = (v, { m with pos := m.pos + 2 }) := by
  have hg : (m.error || decide (m.pos + 2 > m.capacity)) = false := by
    rw [herr]
    simp
    omega
  unfold p9_read_u16
  rw [hg]
  simp only [Bool.false_eq_true, if_false, h0, h1]
  have hval : v % 256 + v / 256 % 256 * 256 = v := by omega
  rw [hval]

/-- p9_read_u32 on a buffer holding the little-endian bytes of v. -/
theorem read_u32_window (m : p9_msg) (v : Nat)
    (herr : m.error = false) (hcap : m.pos + 4 ≤ m.capacity) (hv : v < 4294967296)
    (h0 : m.data.getD m.pos 0 = v % 256)
    (h1 : m.data.getD (m.pos + 1) 0 = v / 256 % 256)
    (h2 : m.data.getD (m.pos + 2) 0 = v / 65536 % 256)
    (h3 : m.data.getD (m.pos + 3) 0 = v / 16777216 % 256) :
    p9_read_u32 m = (v, { m with pos := m.pos + 4 }) := by
  have hg : (m.error || decide (m.pos + 4 > m.capacity)) = false := by
    rw [herr]
    simp
    omega
  unfold p9_read_u32
  rw [hg]
  simp only [Bool.false_eq_true, if_false, h0, h1, h2, h3]
  have hval : v % 256 + v / 256 % 256 * 256 + v / 65536 % 256 * 65536 +
      v / 16777216 % 256 * 16777216 = v := by omega
  rw [hval]

/-- p9_read_u64 on a buffer holding the little-endian bytes of v. -/
theorem read_u64_window (m : p9_msg) (v : Nat)
    (herr : m.error = false) (hcap : m.pos + 8 ≤ m.capacity)
    (hv : v < 18446744073709551616)
    (h0 : m.data.getD m.pos 0 = v % 256)
    (h1 : m.data.getD (m.pos + 1) 0 = v / 256 % 256)
    (h2 : m.data.getD (m.pos + 2) 0 = v / 65536 % 256)
    (h3 : m.data.getD (m.pos + 3) 0 = v / 16777216 % 256)
    (h4 : m.data.getD (m.pos + 4) 0 = v / 4294967296 % 256)
    (h5 : m.data.getD (m.pos + 5) 0 = v / 1099511627776 % 256)
    (h6 : m.data.getD (m.pos + 6) 0 = v / 281474976710656 % 256)
    (h7 : m.data.getD (m.pos + 7) 0 = v / 72057594037927936 % 256) :
    p9_read_u64 m = (v, { m with pos := m.pos + 8 }) := by
  have hg : (m.error || decide (m.pos + 8 > m.capacity)) = false := by
    rw [herr]
    simp
    omega
  unfold p9_read_u64
  rw [hg]
  simp only [Bool.false_eq_true, if_false, h0, h1, h2, h3, h4, h5, h6, h7]
  have hval : v % 256 + v / 256 % 256 * 256 + v / 65536 % 256 * 65536 +
      v / 16777216 % 256 * 16777216 + v / 4294967296 % 256 * 4294967296 +
      v / 1099511627776 % 256 * 1099511627776 +
      v / 281474976710656 % 256 * 281474976710656 +
      v / 72057594037927936 % 256 * 72057594037927936 = v := by omega
  rw [hval]

/-- Round trip for u8. -/
theorem read_write_u8 (msg : p9_msg) (v : Nat)
    (herr : msg.error = false) (hlen : msg.data.length = msg.capacity)
    (hcap : msg.pos + 1 ≤ msg.capacity) (hv : v < 256) :
    p9_read_u8 { (p9_write_u8 msg v).2 with pos := msg.pos } =
      (v, (p9_write_u8 msg v).2) := by
  rw [write_u8_eq msg v herr hcap]
  have hb : msg.pos + ([v] : List Nat).length ≤ msg.data.length := by
    simp
    omega
  have h0 : (setBytes msg.data msg.pos [v]).getD msg.pos 0 = v := by
    have h := setBytes_getD [v] msg.data msg.pos 0 (by simp) hb
    simpa [Nat.mod_eq_of_lt hv] using h
  exact read_u8_window _ v herr hcap hv h0

/-- Round trip for u16. -/
theorem read_write_u16 (msg : p9_msg) (v : Nat)
    (herr : msg.error = false) (hlen : msg.data.length = msg.capacity)
    (hcap : msg.pos + 2 ≤ msg.capacity) (hv : v < 65536) :
    p9_read_u16 { (p9_write_u16 msg v).2 with pos := msg.pos } =
      (v, (p9_write_u16 msg v).2) := by
  rw [write_u16_eq msg v herr hcap]
  have hb : msg.pos + ([v % 256, v / 256 % 256] : List Nat).length ≤ msg.data.length := by
    simp
    omega
  have h0 : (setBytes msg.data msg.pos [v % 256, v / 256 % 256]).getD msg.pos 0 =
      v % 256 := by
    have h := setBytes_getD [v % 256, v / 256 % 256] msg.data msg.pos 0 (by simp) hb
    simpa [mod256_mod256] using h
  have h1 : (setBytes msg.data msg.pos [v % 256, v / 256 % 256]).getD (msg.pos + 1) 0 =
      v / 256 % 256 := by
    have h := setBytes_getD [v % 256, v / 256 % 256] msg.data msg.pos 1 (by simp) hb
    simpa [mod256_mod256] using h
  exact read_u16_window _ v herr hcap hv h0 h1

/-- Round trip for u32. -/
theorem read_write_u32 (msg : p9_msg) (v : Nat)
    (herr : msg.error = false) (hlen : msg.data.length = msg.capacity)
    (hcap : msg.pos + 4 ≤ msg.capacity) (hv : v < 4294967296) :
    p9_read_u32 { (p9_write_u32 msg v).2 with pos := msg.pos } =
      (v, (p9_write_u32 msg v).2) := by
  rw [write_u32_eq msg v herr hcap]
  have hb : msg.pos +
      ([v % 256, v / 256 % 256, v / 65536 % 256, v / 16777216 % 256] : List Nat).length ≤
      msg.data.length := by
    simp
    omega
  have h0 := setBytes_getD [v % 256, v / 256 % 256, v / 65536 % 256, v / 16777216 % 256]
    msg.data msg.pos 0 (by simp) hb
  have h1 := setBytes_getD [v % 256, v / 256 % 256, v / 65536 % 256, v / 16777216 % 256]
    msg.data msg.pos 1 (by simp) hb
  have h2 := setBytes_getD [v % 256, v / 256 % 256, v / 65536 % 256, v / 16777216 % 256]
    msg.data msg.pos 2 (by simp) hb
  have h3 := setBytes_getD [v % 256, v / 256 % 256, v / 65536 % 256, v / 16777216 % 256]
    msg.data msg.pos 3 (by simp) hb
  exact read_u32_window _ v herr hcap hv
    (by simpa [mod256_mod256] using h0) (by simpa [mod256_mod256] using h1)
    (by simpa [mod256_mod256] using h2) (by simpa [mod256_mod256] using h3)

/-- Round trip for u64. -/
theorem read_write_u64 (msg : p9_msg) (v : Nat)
    (herr : msg.error = false) (hlen : msg.data.length = msg.capacity)
    (hcap : msg.pos + 8 ≤ msg.capacity) (hv : v < 18446744073709551616) :
    p9_read_u64 { (p9_write_u64 msg v).2 with pos := msg.pos } =
      (v, (p9_write_u64 msg v).2) := by
  rw [write_u64_eq msg v herr hcap]
  have hb : msg.pos +
      ([v % 256, v / 256 % 256, v / 65536 % 256, v / 16777216 % 256,
        v / 4294967296 % 256, v / 1099511627776 % 256, v / 281474976710656 % 256,
        v / 72057594037927936 % 256] : List Nat).length ≤ msg.data.length := by
    simp
    omega
  have h0 := setBytes_getD [v % 256, v / 256 % 256, v / 65536 % 256, v / 16777216 % 256,
    v / 4294967296 % 256, v / 1099511627776 % 256, v / 281474976710656 % 256,
    v / 72057594037927936 % 256] msg.data msg.pos 0 (by simp) hb
  have h1 := setBytes_getD [v % 256, v / 256 % 256, v / 65536 % 256, v / 16777216 % 256,
    v / 4294967296 % 256, v / 1099511627776 % 256, v / 281474976710656 % 256,
    v / 72057594037927936 % 256] msg.data msg.pos 1 (by simp) hb
  have h2 := setBytes_getD [v % 256, v / 256 % 256, v / 65536 % 256, v / 16777216 % 256,
    v / 4294967296 % 256, v / 1099511627776 % 256, v / 281474976710656 % 256,
    v / 72057594037927936 % 256] msg.data msg.pos 2 (by simp) hb
  have h3 := setBytes_getD [v % 256, v / 256 % 256, v / 65536 % 256, v / 16777216 % 256,
    v / 4294967296 % 256, v / 1099511627776 % 256, v / 281474976710656 % 256,
    v / 72057594037927936 % 256] msg.data msg.pos 3 (by simp) hb
  have h4 := setBytes_getD [v % 256, v / 256 % 256, v / 65536 % 256, v / 16777216 % 256,
    v / 4294967296 % 256, v / 1099511627776 % 256, v / 281474976710656 % 256,
    v / 72057594037927936 % 256] msg.data msg.pos 4 (by simp) hb
  have h5 := setBytes_getD [v % 256, v / 256 % 256, v / 65536 % 256, v / 16777216 % 256,
    v / 4294967296 % 256, v / 1099511627776 % 256, v / 281474976710656 % 256,
    v / 72057594037927936 % 256] msg.data msg.pos 5 (by simp) hb
  have h6 := setBytes_getD [v % 256, v / 256 % 256, v / 65536 % 256, v / 16777216 % 256,
    v / 4294967296 % 256, v / 1099511627776 % 256, v / 281474976710656 % 256,
    v / 72057594037927936 % 256] msg.data msg.pos 6 (by simp) hb
  have h7 := setBytes_getD [v % 256, v / 256 % 256, v / 65536 % 256, v / 16777216 % 256,
    v / 4294967296 % 256, v / 1099511627776 % 256, v / 281474976710656 % 256,
    v / 72057594037927936 % 256] msg.data msg.pos 7 (by simp) hb
  exact read_u64_window _ v herr hcap hv
    (by simpa [mod256_mod256] using h0) (by simpa [mod256_mod256] using h1)
    (by simpa [mod256_mod256] using h2) (by simpa [mod256_mod256] using h3)
    (by simpa [mod256_mod256] using h4) (by simpa [mod256_mod256] using h5)
    (by simpa [mod256_mod256] using h6) (by simpa [mod256_mod256] using h7)

/-- Round trip for length-prefixed strings (byte sequences of length at
most 65535): writing with p9_write_string_len and decoding with
p9_read_string recovers the bytes, with the cursor advanced by exactly
2 + length. -/
theorem read_write_string (msg : p9_msg) (s : List Nat)
    (herr : msg.error = false) (hlen : msg.data.length = msg.capacity)
    (hcap : msg.pos + 2 + s.length ≤ msg.capacity) (hslen : s.length < 65536)
    (hbytes : ∀ b ∈ s, b < 256) :
    p9_read_string { (p9_write_string_len msg s).2 with pos := msg.pos } =
      (some s, (p9_write_string_len msg s).2) := by
  have hg : (msg.error || decide (msg.pos + 2 + s.length > msg.capacity)) = false := by
    rw [herr]
    simp
    omega
  have hw : p9_write_string_len msg s = (true,
      { msg with
        data := setBytes (setBytes msg.data msg.pos [s.length % 256, s.length / 256 % 256])
          (msg.pos + 2) s
        pos := msg.pos + 2 + s.length }) := by
    unfold p9_write_string_len
    rw [hg]
    simp only [Bool.false_eq_true, if_false]
    rw [write_u16_eq msg s.length herr (by omega)]
  have hD2b : msg.pos + ([s.length % 256, s.length / 256 % 256] : List Nat).length ≤
      msg.data.length := by
    simp
    omega
  have hD2len : (setBytes msg.data msg.pos
      [s.length % 256, s.length / 256 % 256]).length = msg.data.length :=
    setBytes_length _ _ _
  have h0 : (setBytes (setBytes msg.data msg.pos [s.length % 256, s.length / 256 % 256])
      (msg.pos + 2) s).getD msg.pos 0 = s.length % 256 := by
    rw [setBytes_getD_lt s _ _ _ (by omega)]
    have h := setBytes_getD [s.length % 256, s.length / 256 % 256] msg.data msg.pos 0
      (by simp) hD2b
    simpa [mod256_mod256] using h
  have h1 : (setBytes (setBytes msg.data msg.pos [s.length % 256, s.length / 256 % 256])
      (msg.pos + 2) s).getD (msg.pos + 1) 0 = s.length / 256 % 256 := by
    rw [setBytes_getD_lt s _ _ _ (by omega)]
    have h := setBytes_getD [s.length % 256, s.length / 256 % 256] msg.data msg.pos 1
      (by simp) hD2b
    simpa [mod256_mod256] using h
  have hread := read_u16_window
    { data := setBytes (setBytes msg.data msg.pos [s.length % 256, s.length / 256 % 256])
        (msg.pos + 2) s
      capacity := msg.capacity, pos := msg.pos, error := false }
    s.length rfl (by dsimp only; omega) hslen h0 h1
  have hslice : ((setBytes (setBytes msg.data msg.pos
      [s.length % 256, s.length / 256 % 256]) (msg.pos + 2) s).drop (msg.pos + 2)).take
      s.length = s :=
    slice_setBytes _ _ s (by rw [hD2len]; omega) hbytes
  rw [hw]
  dsimp only
  unfold p9_read_string
  rw [herr]
  simp only [Bool.false_eq_true, if_false]
  rw [hread]
  dsimp only
  simp only [Bool.false_eq_true, if_false]
  have hbound : (decide (msg.pos + 2 + s.length > msg.capacity)) = false := by
    simp
    omega
  rw [hbound]
  simp only [Bool.false_eq_true, if_false]
  rw [hslice]

/-- Round trip for QIDs: 13 bytes, type/version/path in order. -/
theorem read_write_qid (msg : p9_msg) (q : p9_qid)
    (herr : msg.error = false) (hlen : msg.data.length = msg.capacity)
    (hcap : msg.pos + 13 ≤ msg.capacity) (ht : q.type < 256)
    (hv : q.version < 4294967296) (hp : q.path < 18446744073709551616) :
    p9_read_qid { (p9_write_qid msg q).2 with pos := msg.pos } =
      (some q, (p9_write_qid msg q).2) := by
  have hw : p9_write_qid msg q = (true,
      { msg with
        data := setBytes (setBytes (setBytes msg.data msg.pos [q.type]) (msg.pos + 1)
          [q.version % 256, q.version / 256 % 256, q.version / 65536 % 256,
           q.version / 16777216 % 256]) (msg.pos + 1 + 4)
          [q.path % 256, q.path / 256 % 256, q.path / 65536 % 256, q.path / 16777216 % 256,
           q.path / 4294967296 % 256, q.path / 1099511627776 % 256,
           q.path / 281474976710656 % 256, q.path / 72057594037927936 % 256]
        pos := msg.pos + 1 + 4 + 8 }) := by
    unfold p9_write_qid
    rw [write_u8_eq msg q.type herr (by omega)]
    dsimp only
    rw [write_u32_eq
      { data := setBytes msg.data msg.pos [q.type]
        capacity := msg.capacity, pos := msg.pos + 1, error := msg.error }
      q.version herr (by dsimp only; omega)]
    dsimp only
    rw [write_u64_eq
      { data := setBytes (setBytes msg.data msg.pos [q.type]) (msg.pos + 1)
          [q.version % 256, q.version / 256 % 256, q.version / 65536 % 256,
           q.version / 16777216 % 256]
        capacity := msg.capacity, pos := msg.pos + 1 + 4, error := msg.error }
      q.path herr (by dsimp only; omega)]
    rfl
  have hD1len : (setBytes msg.data msg.pos [q.type]).length = msg.data.length :=
    setBytes_length _ _ _
  have hD2len : (setBytes (setBytes msg.data msg.pos [q.type]) (msg.pos + 1)
      [q.version % 256, q.version / 256 % 256, q.version / 65536 % 256,
       q.version / 16777216 % 256]).length = msg.data.length := by
    rw [setBytes_length, hD1len]
  have hD3len : (setBytes (setBytes (setBytes msg.data msg.pos [q.type]) (msg.pos + 1)
      [q.version % 256, q.version / 256 % 256, q.version / 65536 % 256,
       q.version / 16777216 % 256]) (msg.pos + 1 + 4)
      [q.path % 256, q.path / 256 % 256, q.path / 65536 % 256, q.path / 16777216 % 256,
       q.path / 4294967296 % 256, q.path / 1099511627776 % 256,
       q.path / 281474976710656 % 256, q.path / 72057594037927936 % 256]).length =
      msg.data.length := by
    rw [setBytes_length, hD2len]
  have ht0 : (setBytes (setBytes (setBytes msg.data msg.pos [q.type]) (msg.pos + 1)
      [q.version % 256, q.version / 256 % 256, q.version / 65536 % 256,
       q.version / 16777216 % 256]) (msg.pos + 1 + 4)
      [q.path % 256, q.path / 256 % 256, q.path / 65536 % 256, q.path / 16777216 % 256,
       q.path / 4294967296 % 256, q.path / 1099511627776 % 256,
       q.path / 281474976710656 % 256, q.path / 72057594037927936 % 256]).getD msg.pos 0 =
      q.type := by
    rw [setBytes_getD_lt _ _ _ _ (by omega), setBytes_getD_lt _ _ _ _ (by omega)]
    have h := setBytes_getD [q.type] msg.data msg.pos 0 (by simp) (by simp; omega)
    simpa [Nat.mod_eq_of_lt ht] using h
  have hver : ∀ i, i < 4 →
      (setBytes (setBytes (setBytes msg.data msg.pos [q.type]) (msg.pos + 1)
        [q.version % 256, q.version / 256 % 256, q.version / 65536 % 256,
         q.version / 16777216 % 256]) (msg.pos + 1 + 4)
        [q.path % 256, q.path / 256 % 256, q.path / 65536 % 256, q.path / 16777216 % 256,
         q.path / 4294967296 % 256, q.path / 1099511627776 % 256,
         q.path / 281474976710656 % 256, q.path / 72057594037927936 % 256]).getD
        (msg.pos + 1 + i) 0 =
      ([q.version % 256, q.version / 256 % 256, q.version / 65536 % 256,
        q.version / 16777216 % 256] : List Nat).getD i 0 % 256 := by
    intro i hi
    rw [setBytes_getD_lt _ _ _ _ (by omega)]
    exact setBytes_getD _ _ _ i (by simpa using hi) (by rw [hD1len]; simp; omega)
  have hpath : ∀ i, i < 8 →
      (setBytes (setBytes (setBytes msg.data msg.pos [q.type]) (msg.pos + 1)
        [q.version % 256, q.version / 256 % 256, q.version / 65536 % 256,
         q.version / 16777216 % 256]) (msg.pos + 1 + 4)
        [q.path % 256, q.path / 256 % 256, q.path / 65536 % 256, q.path / 16777216 % 256,
         q.path / 4294967296 % 256, q.path / 1099511627776 % 256,
         q.path / 281474976710656 % 256, q.path / 72057594037927936 % 256]).getD
        (msg.pos + 1 + 4 + i) 0 =
      ([q.path % 256, q.path / 256 % 256, q.path / 65536 % 256, q.path / 16777216 % 256,
        q.path / 4294967296 % 256, q.path / 1099511627776 % 256,
        q.path / 281474976710656 % 256, q.path / 72057594037927936 % 256] : List Nat).getD
        i 0 % 256 := by
    intro i hi
    exact setBytes_getD _ _ _ i (by simpa using hi) (by rw [hD2len]; simp; omega)
  rw [hw]
  dsimp only
  unfold p9_read_qid
  rw [herr]
  rw [read_u8_window
    { data := setBytes (setBytes (setBytes msg.data msg.pos [q.type]) (msg.pos + 1)
        [q.version % 256, q.version / 256 % 256, q.version / 65536 % 256,
         q.version / 16777216 % 256]) (msg.pos + 1 + 4)
        [q.path % 256, q.path / 256 % 256, q.path / 65536 % 256, q.path / 16777216 % 256,
         q.path / 4294967296 % 256, q.path / 1099511627776 % 256,
         q.path / 281474976710656 % 256, q.path / 72057594037927936 % 256]
      capacity := msg.capacity, pos := msg.pos, error := false }
    q.type rfl (by dsimp only; omega) ht ht0]
  dsimp only
  rw [read_u32_window
    { data := setBytes (setBytes (setBytes msg.data msg.pos [q.type]) (msg.pos + 1)
        [q.version % 256, q.version / 256 % 256, q.version / 65536 % 256,
         q.version / 16777216 % 256]) (msg.pos + 1 + 4)
        [q.path % 256, q.path / 256 % 256, q.path / 65536 % 256, q.path / 16777216 % 256,
         q.path / 4294967296 % 256, q.path / 1099511627776 % 256,
         q.path / 281474976710656 % 256, q.path / 72057594037927936 % 256]
      capacity := msg.capacity, pos := msg.pos + 1, error := false }
    q.version rfl (by dsimp only; omega) hv
    (by simpa [mod256_mod256] using hver 0 (by omega))
    (by simpa [mod256_mod256] using hver 1 (by omega))
    (by simpa [mod256_mod256] using hver 2 (by omega))
    (by simpa [mod256_mod256] using hver 3 (by omega))]
  dsimp only
  rw [read_u64_window
    { data := setBytes (setBytes (setBytes msg.data msg.pos [q.type]) (msg.pos + 1)
        [q.version % 256, q.version / 256 % 256, q.version / 65536 % 256,
         q.version / 16777216 % 256]) (msg.pos + 1 + 4)
        [q.path % 256, q.path / 256 % 256, q.path / 65536 % 256, q.path / 16777216 % 256,
         q.path / 4294967296 % 256, q.path / 1099511627776 % 256,
         q.path / 281474976710656 % 256, q.path / 72057594037927936 % 256]
      capacity := msg.capacity, pos := msg.pos + 1 + 4, error := false }
    q.path rfl (by dsimp only; omega) hp
    (by simpa [mod256_mod256] using hpath 0 (by omega))
    (by simpa [mod256_mod256] using hpath 1 (by omega))
    (by simpa [mod256_mod256] using hpath 2 (by omega))
    (by simpa [mod256_mod256] using hpath 3 (by omega))
    (by simpa [mod256_mod256] using hpath 4 (by omega))
    (by simpa [mod256_mod256] using hpath 5 (by omega))
    (by simpa [mod256_mod256] using hpath 6 (by omega))
    (by simpa [mod256_mod256] using hpath 7 (by omega))]
  rfl

/-- C6: decode-after-encode is the identity for every codec value shape —
unsigned integers of 1, 2, 4 and 8 bytes, length-prefixed strings of at
most 65535 bytes, and QIDs — when the buffer has room: the decoded value
equals the encoded one and the cursor advances by exactly the encoded
length (the write's final position), both directions little-endian. -/
theorem C6_codec_roundtrip :
    (∀ (msg : p9_msg) (v : Nat), msg.error = false → msg.data.length = msg.capacity →
      msg.pos + 1 ≤ msg.capacity → v < 256 →
      p9_read_u8 { (p9_write_u8 msg v).2 with pos := msg.pos } =
        (v, (p9_write_u8 msg v).2)) ∧
    (∀ (msg : p9_msg) (v : Nat), msg.error = false → msg.data.length = msg.capacity →
      msg.pos + 2 ≤ msg.capacity → v < 65536 →
      p9_read_u16 { (p9_write_u16 msg v).2 with pos := msg.pos } =
        (v, (p9_write_u16 msg v).2)) ∧
    (∀ (msg : p9_msg) (v : Nat), msg.error = false → msg.data.length = msg.capacity →
      msg.pos + 4 ≤ msg.capacity → v < 4294967296 →
      p9_read_u32 { (p9_write_u32 msg v).2 with pos := msg.pos } =
        (v, (p9_write_u32 msg v).2)) ∧
    (∀ (msg : p9_msg) (v : Nat), msg.error = false → msg.data.length = msg.capacity →
      msg.pos + 8 ≤ msg.capacity → v < 18446744073709551616 →
      p9_read_u64 { (p9_write_u64 msg v).2 with pos := msg.pos } =
        (v, (p9_write_u64 msg v).2)) ∧
    (∀ (msg : p9_msg) (s : List Nat), msg.error = false →
      msg.data.length = msg.capacity → msg.pos + 2 + s.length ≤ msg.capacity →
      s.length < 65536 → (∀ b ∈ s, b < 256) →
      p9_read_string { (p9_write_string_len msg s).2 with pos := msg.pos } =
        (some s, (p9_write_string_len msg s).2)) ∧
    (∀ (msg : p9_msg) (q : p9_qid), msg.error = false →
      msg.data.length = msg.capacity → msg.pos + 13 ≤ msg.capacity → q.type < 256 →
      q.version < 4294967296 → q.path < 18446744073709551616 →
      p9_read_qid { (p9_write_qid msg q).2 with pos := msg.pos } =
        (some q, (p9_write_qid msg q).2)) :=
  ⟨read_write_u8, read_write_u16, read_write_u32, read_write_u64,
   read_write_string, read_write_qid⟩

/-- C6 witness: the round trips at a concrete 32-byte buffer, one value
per shape. -/
theorem C6_codec_roundtrip_witness :
    p9_read_u8 { (p9_write_u8 msg0 200).2 with pos := msg0.pos } =
      (200, (p9_write_u8 msg0 200).2) ∧
    p9_read_u16 { (p9_write_u16 msg0 40000).2 with pos := msg0.pos } =
      (40000, (p9_write_u16 msg0 40000).2) ∧
    p9_read_u32 { (p9_write_u32 msg0 3000000000).2 with pos := msg0.pos } =
      (3000000000, (p9_write_u32 msg0 3000000000).2) ∧
    p9_read_u64 { (p9_write_u64 msg0 9223372036854775813).2 with pos := msg0.pos } =
      (9223372036854775813, (p9_write_u64 msg0 9223372036854775813).2) ∧
    p9_read_string { (p9_write_string_len msg0 [104, 105]).2 with pos := msg0.pos } =
      (some [104, 105], (p9_write_string_len msg0 [104, 105]).2) ∧
    p9_read_qid { (p9_write_qid msg0 ⟨128, 7, 123456789⟩).2 with pos := msg0.pos } =
      (some ⟨128, 7, 123456789⟩, (p9_write_qid msg0 ⟨128, 7, 123456789⟩).2) :=
  ⟨C6_codec_roundtrip.1 msg0 200 rfl rfl (by decide) (by decide),
   C6_codec_roundtrip.2.1 msg0 40000 rfl rfl (by decide) (by decide),
   C6_codec_roundtrip.2.2.1 msg0 3000000000 rfl rfl (by decide) (by decide),
   C6_codec_roundtrip.2.2.2.1 msg0 9223372036854775813 rfl rfl (by decide) (by decide),
   C6_codec_roundtrip.2.2.2.2.1 msg0 [104, 105] rfl rfl (by decide) (by decide)
     (by decide),
   C6_codec_roundtrip.2.2.2.2.2 msg0 ⟨128, 7, 123456789⟩ rfl rfl (by decide) (by decide)
     (by decide) (by decide)⟩

/-! ## C10 — p9_read_string_buf truncation -/

/-- C10: for a cursor holding a complete wire string of length L and a
destination buffer of size B ≥ 1, p9_read_string_buf copies at most
B - 1 bytes (exactly B - 1 when L exceeds it, i.e. silent truncation),
null-terminates the destination (the copied run is what precedes the
terminator), yet advances the cursor by the full 2 + L and returns L. -/
theorem C10_read_string_buf_truncates (msg : p9_msg) (bufsize L : Nat)
    (hbuf : 1 ≤ bufsize) (herr : msg.error = false)
    (hb0 : msg.data.getD msg.pos 0 < 256) (hb1 : msg.data.getD (msg.pos + 1) 0 < 256)
    (hL : L = msg.data.getD msg.pos 0 + msg.data.getD (msg.pos + 1) 0 * 256)
    (hcap : msg.pos + 2 + L ≤ msg.capacity) :
    p9_read_string_buf msg bufsize =
      (L, (msg.data.drop (msg.pos + 2)).take (if L < bufsize - 1 then L else bufsize - 1),
        { msg with pos := msg.pos + 2 + L }) ∧
    ((msg.data.drop (msg.pos + 2)).take
      (if L < bufsize - 1 then L else bufsize - 1)).length ≤ bufsize - 1 ∧
    (bufsize - 1 < L → msg.data.length = msg.capacity →
      ((msg.data.drop (msg.pos + 2)).take
        (if L < bufsize - 1 then L else bufsize - 1)).length = bufsize - 1) := by
  have hread := read_u16_window msg L herr (by omega) (by omega)
    (by omega) (by omega)
  refine ⟨?_, ?_, ?_⟩
  · unfold p9_read_string_buf
    have hz : (bufsize == 0) = false := by
      simp
      omega
    rw [hz, herr]
    simp only [Bool.false_or, Bool.false_eq_true, if_false]
    rw [hread]
    dsimp only
    rw [herr]
    simp only [Bool.false_eq_true, if_false]
    have hbound : (decide (msg.pos + 2 + L > msg.capacity)) = false := by
      simp
      omega
    rw [hbound]
    simp only [Bool.false_eq_true, if_false]
  · simp only [List.length_take, List.length_drop]
    split_ifs <;> omega
  · intro htrunc hlen
    simp only [List.length_take, List.length_drop]
    split_ifs <;> omega

/-- C10 witness: a 5-byte wire string read into a 4-byte buffer copies
3 bytes yet returns 5 and leaves the cursor past the whole string. -/
theorem C10_read_string_buf_truncates_witness :
    p9_read_string_buf msg_str5 4 =
      (5, (msg_str5.data.drop (msg_str5.pos + 2)).take (if 5 < 4 - 1 then 5 else 4 - 1),
        { msg_str5 with pos := msg_str5.pos + 2 + 5 }) ∧
    ((msg_str5.data.drop (msg_str5.pos + 2)).take
      (if 5 < 4 - 1 then 5 else 4 - 1)).length ≤ 4 - 1 ∧
    (4 - 1 < 5 → msg_str5.data.length = msg_str5.capacity →
      ((msg_str5.data.drop (msg_str5.pos + 2)).take
        (if 5 < 4 - 1 then 5 else 4 - 1)).length = 4 - 1) :=
  C10_read_string_buf_truncates msg_str5 4 5 (by decide) rfl (by decide) (by decide)
    (by decide) (by decide)

end P9
